import Mathlib

/-!
# cloudpods task engine: handlers and worker routing

A shallow embedding of
* `pkg/cloudcommon/db/taskman/worker.go` (routing of a task to a worker pool),
* `pkg/image/tasks/image_copy_from_url_task.go`,
* `pkg/compute/tasks/snapshotpolicy_disk_task.go`,
* `pkg/mcclient/options/compute/mongodb.go`,
* `pkg/util/huawei/region.go` (the listing of elastic IPs),
* `vendor/github.com/lestrrat-go/jwx/jws/jws.go` (signing, verification and
  the splitting of the compact serialization).

Go functions become Lean functions. Calls into collaborators whose code is not
part of the tree (notification client, operation log, drivers, the model
layer) are recorded, in call order, as a list of effects; what such a call
returns is an argument of the embedded function.
-/

namespace jsonutils

/-- JSON values of `yunion.io/x/jsonutils`, as far as the embedded code builds
and inspects them: strings, booleans and dictionaries. The library is not part
of the tree; a dictionary is kept as its key/value pairs. -/
inductive JSONObject where
  | JSONNull
  | JSONString (s : String)
  | JSONBool (b : Bool)
  | JSONDict (fields : List (String × JSONObject))

open JSONObject

/-- The value `jsonutils.JSONTrue`. -/
def JSONTrue : JSONObject := JSONBool true

/-- The value `jsonutils.JSONFalse`. -/
def JSONFalse : JSONObject := JSONBool false

/-- The constructor `jsonutils.NewString`. -/
def NewString (s : String) : JSONObject := JSONString s

/-- The constructor `jsonutils.NewDict`: an empty dictionary. -/
def NewDict : JSONObject := JSONDict []

/-- Setting one key of a field list: an existing key gets the new value in
place, a new key is appended. -/
def setField (k : String) (v : JSONObject) :
    List (String × JSONObject) → List (String × JSONObject)
  | [] => [(k, v)]
  | (k', v') :: rest =>
    if k' = k then (k, v) :: rest else (k', v') :: setField k v rest

/-- The method `(*JSONDict).Add(o, key)` with a single key. On a value that is not a
dictionary nothing is stored. -/
def Add (d : JSONObject) (o : JSONObject) (key : String) : JSONObject :=
  match d with
  | JSONDict fields => JSONDict (setField key o fields)
  | other => other

/-- Looking a key up in a field list. -/
def getField (k : String) : List (String × JSONObject) → Option JSONObject
  | [] => none
  | (k', v') :: rest => if k' = k then some v' else getField k rest

/-- The method `JSONObject.Get(key)`; `none` is Go's non-nil error. -/
def Get (d : JSONObject) (key : String) : Option JSONObject :=
  match d with
  | JSONDict fields => getField key fields
  | _ => none

/-- The method `JSONObject.Contains(key)`. -/
def Contains (d : JSONObject) (key : String) : Bool :=
  (Get d key).isSome

end jsonutils

/-- Go's `error` interface, reduced to the text `Error()` returns; a nil error
is `none : Option error`. -/
structure error where
  Error : String
deriving DecidableEq, Repr

namespace taskman

open jsonutils jsonutils.JSONObject

/-- The pool type `appsrv.SWorkerManager`, by the arguments of
`appsrv.NewWorkerManager`. -/
structure SWorkerManager where
  name : String
  workerCount : Nat
  backlog : Nat
  dbWorker : Bool
deriving DecidableEq, Repr

/-- The constructor `appsrv.NewWorkerManager`. -/
def NewWorkerManager (name : String) (workerCount backlog : Nat) (dbWorker : Bool) :
    SWorkerManager :=
  ⟨name, workerCount, backlog, dbWorker⟩

/-- The two package variables of worker.go. -/
structure Globals where
  taskWorkMan : SWorkerManager
  taskWorkerTable : String → Option SWorkerManager

/-- Function `init()` of worker.go: the shared pool and an empty routing table. -/
def init : Globals where
  taskWorkMan := NewWorkerManager "TaskWorkerManager" 4 1024 true
  taskWorkerTable := fun _ => none

/-- The queued unit, `type taskTask struct`. -/
structure taskTask where
  taskId : String
  data : JSONObject

/-- The constants of `pkg/apis/notify` that worker.go names; their values are
declared outside the tree. -/
structure NotifyApi where
  ActionSystemPanic : String
  TOPIC_RESOURCE_TASK : String

/-- One call of the notification client. -/
inductive NotifyCall where
  | SystemExceptionNotify (action : String) (topic : String) (data : JSONObject)

/-- The function literal that `runTask` passes to `worker.Run` as its panic
callback. `stack` is what `debug.Stack()` returns when the callback runs. The
result lists the notification calls the callback makes. -/
def runTask.onPanic (api : NotifyApi) (taskName taskId : String)
    (stack : String) (err : error) : List NotifyCall :=
  let data := NewDict
  let data := Add data (NewString taskName) "task_name"
  let data := Add data (NewString taskId) "task_id"
  let data := Add data (NewString stack) "stack"
  let data := Add data (NewString err.Error) "error"
  [NotifyCall.SystemExceptionNotify api.ActionSystemPanic api.TOPIC_RESOURCE_TASK data]

/-- One call `worker.Run(task, nil, onPanic)`. -/
structure Submission where
  worker : SWorkerManager
  task : taskTask
  onPanic : String → error → List NotifyCall

/-- Function `runTask(taskId string, data jsonutils.JSONObject) error`.
`getTaskName` is `TaskManager.getTaskName`, `Run` tells whether the pool
accepts the unit (the result of `worker.Run`). Returns the error together with
the calls of `worker.Run` made. -/
def runTask (api : NotifyApi) (g : Globals) (getTaskName : String → String)
    (Run : SWorkerManager → taskTask → Bool)
    (taskId : String) (data : JSONObject) : Option error × List Submission :=
  let taskName := getTaskName taskId
  if taskName.utf8ByteSize == 0 then
    (some ⟨"no such task??? task_id=" ++ taskId⟩, [])
  else
    let worker :=
      match g.taskWorkerTable taskName with
      | some workerMan => workerMan
      | none => g.taskWorkMan
    let task : taskTask := { taskId := taskId, data := data }
    let isOk := Run worker task
    let call : Submission := ⟨worker, task, runTask.onPanic api taskName taskId⟩
    if !isOk then
      (some ⟨"worker " ++ taskName ++ "(" ++ taskId ++ ") not running may be droped"⟩, [call])
    else
      (none, [call])

end taskman

namespace image.tasks

open jsonutils jsonutils.JSONObject

/-- The part of `taskman.STask` that `ImageCopyFromUrlTask.OnInit` reads. -/
structure STask where
  Params : JSONObject
  UserCred : String

/-- What `httputils.Request` and `image.SaveImageFromStream` answer; both are
outside the tree. A response is kept as its body. -/
structure Env where
  Request : String → Except error String
  SaveImageFromStream : String → Option error
  GetString : JSONObject → String → Option String

/-- The calls `OnInit` makes on the image, on the logger and on the embedded
`taskman.STask`, without their context argument. -/
inductive Effect where
  | Infof (msg : String)
  | Request (method : String) (url : String)
  | SaveImageFromStream (body : String)
  | OnSaveFailed (userCred : String) (msg : String)
  | OnSaveSuccess (userCred : String) (msg : String)
  | StartImageConvertTask (userCred : String) (parentTaskId : String) (isNew : Bool)
  | SetStageFailed (reason : String)
  | SetStageComplete (data : Option JSONObject)
deriving Inhabited

/-- Method `(*ImageCopyFromUrlTask).OnInit`: the calls it makes, in order. -/
def ImageCopyFromUrlTask.OnInit (env : Env) (self : STask) : List Effect :=
  let copyFrom := (env.GetString self.Params "copy_from").getD ""
  let pre := [Effect.Infof ("Copy image from " ++ copyFrom), Effect.Request "GET" copyFrom]
  match env.Request copyFrom with
  | .error err =>
    let msg := "copy from url " ++ copyFrom ++ " request fail " ++ err.Error
    pre ++ [Effect.OnSaveFailed self.UserCred msg, Effect.SetStageFailed msg]
  | .ok body =>
    match env.SaveImageFromStream body with
    | some err =>
      let msg := " copy from url " ++ copyFrom ++ " stream fail " ++ err.Error
      pre ++ [Effect.SaveImageFromStream body,
        Effect.OnSaveFailed self.UserCred msg, Effect.SetStageFailed msg]
    | none =>
      pre ++ [Effect.SaveImageFromStream body,
        Effect.OnSaveSuccess self.UserCred "copy from success",
        Effect.StartImageConvertTask self.UserCred "" true,
        Effect.SetStageComplete none]

/-- Recogniser of a `SetStageFailed` call. -/
def Effect.isSetStageFailed : Effect → Bool
  | .SetStageFailed _ => true
  | _ => false

/-- Recogniser of a `SetStageComplete` call. -/
def Effect.isSetStageComplete : Effect → Bool
  | .SetStageComplete _ => true
  | _ => false

end image.tasks

namespace compute.tasks

open jsonutils jsonutils.JSONObject

/-- The fields of `models.SDisk` the tasks read. -/
structure SDisk where
  Id : String
  Name : String
deriving DecidableEq, Repr

/-- The fields of `models.SSnapshotPolicyDisk` the tasks read. -/
structure SSnapshotPolicyDisk where
  Id : String
  SnapshotpolicyId : String
deriving DecidableEq, Repr

/-- The type `models.SSnapshotPolicy`, by its id. -/
structure SSnapshotPolicy where
  Id : String
deriving DecidableEq, Repr

/-- The part of `taskman.STask` the handlers read and write. -/
structure STask where
  Params : JSONObject
  UserCred : String

/-- Constants of `pkg/apis/compute`, `pkg/cloudcommon/db` and
`pkg/util/logclient` that the file names; they are declared outside the
tree. -/
structure Consts where
  DISK_APPLY_SNAPSHOT_FAIL : String
  DISK_CALCEL_SNAPSHOT_FAIL : String
  SNAPSHOT_POLICY_DISK_READY : String
  SNAPSHOT_POLICY_DISK_DELETE_FAILED : String
  db_ACT_SNAPSHOT_POLICY_BIND_DISK : String
  db_ACT_SNAPSHOT_POLICY_BIND_DISK_FAIL : String
  db_ACT_SNAPSHOT_POLICY_UNBIND_DISK : String
  db_ACT_SNAPSHOT_POLICY_UNBIND_DISK_FAIL : String
  db_ACT_APPLY_SNAPSHOT_POLICY : String
  db_ACT_APPLY_SNAPSHOT_POLICY_FAILED : String
  db_ACT_CANCEL_SNAPSHOT_POLICY : String
  db_ACT_CANCEL_SNAPSHOT_POLICY_FAILED : String
  logclient_ACT_BIND_DISK : String
  logclient_ACT_UNBIND_DISK : String
  logclient_ACT_APPLY_SNAPSHOT_POLICY : String
  logclient_ACT_CANCEL_SNAPSHOT_POLICY : String

/-- What the model layer, the region driver and the JSON library answer. A Go
result pair `(value, err)` whose value is read only when `err == nil` is an
`Except`; `FetchBySnapshotPolicyDisk`, whose value is also read next to a
non-nil `err`, keeps both components. -/
structure Env where
  consts : Consts
  stringOf : JSONObject → String
  GetString : JSONObject → String → Option String
  UnmarshalSnapshotPolicyDisk : JSONObject → String → SSnapshotPolicyDisk
  UnmarshalSnapshotPolicy : JSONObject → String → SSnapshotPolicy
  FetchById : String → Except error SSnapshotPolicy
  FetchSnapshotPolicyById : String → Except error SSnapshotPolicy
  FetchBySnapshotPolicyDisk : String → String → Option SSnapshotPolicyDisk × Option error
  RealDetach : SSnapshotPolicyDisk → Option error
  RequestPreSnapshotPolicyApply : SDisk → Option SSnapshotPolicy → JSONObject → Option error
  RequestApplySnapshotPolicy : SDisk → SSnapshotPolicy → JSONObject → Option error
  RequestCancelSnapshotPolicy : SDisk → SSnapshotPolicy → JSONObject → Option error

/-- The object a log entry or a status change is about. -/
inductive Subject where
  | disk (d : SDisk)
  | snapshotpolicy (sp : SSnapshotPolicy)
  | snapshotpolicydisk (spd : SSnapshotPolicyDisk)
deriving DecidableEq, Repr

/-- The `notes interface{}` argument of the log calls: a Go string or a JSON
value. -/
inductive Notes where
  | text (s : String)
  | json (o : JSONObject)

/-- The calls a handler makes on its collaborators, without the context
argument. The getters `disk.GetStorage`, `storage.GetRegion` and
`region.GetDriver`, whose errors the handlers drop, are not recorded. -/
inductive Effect where
  | Errorf (msg : String)
  | RealDetach (spd : SSnapshotPolicyDisk) (userCred : String)
  | SetStatus (obj : Subject) (userCred : String) (status : String) (reason : String)
  | LogEvent (obj : Subject) (action : String) (notes : Notes) (userCred : String)
  | AddActionLogWithStartable (obj : Subject) (action : String) (notes : Notes)
      (userCred : String) (success : Bool)
  | NotifySystemErrorWithCtx (id : String) (name : String) (event : String) (reason : String)
  | RequestPreSnapshotPolicyApply (userCred : String) (disk : SDisk)
      (sp : Option SSnapshotPolicy) (data : JSONObject)
  | RequestApplySnapshotPolicy (userCred : String) (disk : SDisk) (sp : SSnapshotPolicy)
      (data : JSONObject)
  | RequestCancelSnapshotPolicy (userCred : String) (disk : SDisk) (sp : SSnapshotPolicy)
      (data : JSONObject)
  | SetStage (stageName : String) (data : Option JSONObject)
  | SetStageComplete (data : Option JSONObject)
  | SetStageFailed (reason : JSONObject)

/-- Method `(*SnapshotPolicyApplyTask).taskFail`; a nil `spd` is `none`. -/
def SnapshotPolicyApplyTask.taskFail (env : Env) (self : STask) (disk : SDisk)
    (spd : Option SSnapshotPolicyDisk) (reason : JSONObject) : List Effect :=
  (match spd with
    | some spd =>
      [Effect.RealDetach spd self.UserCred] ++
      (match env.RealDetach spd with
        | some _ =>
          [Effect.Errorf ("Delete snapshotpolicydisk " ++ spd.Id ++ " failed, need to delete")]
        | none => []) ++
      (match env.FetchSnapshotPolicyById spd.SnapshotpolicyId with
        | .ok snapshotpolicy =>
          [Effect.LogEvent (.snapshotpolicy snapshotpolicy)
              env.consts.db_ACT_SNAPSHOT_POLICY_BIND_DISK_FAIL (.text "") self.UserCred,
            Effect.AddActionLogWithStartable (.snapshotpolicy snapshotpolicy)
              env.consts.logclient_ACT_BIND_DISK (.text "") self.UserCred false]
        | .error _ => [])
    | none => []) ++
  [Effect.SetStatus (.disk disk) self.UserCred env.consts.DISK_APPLY_SNAPSHOT_FAIL
      (env.stringOf reason),
    Effect.LogEvent (.disk disk) env.consts.db_ACT_APPLY_SNAPSHOT_POLICY_FAILED
      (.json reason) self.UserCred,
    Effect.AddActionLogWithStartable (.disk disk)
      env.consts.logclient_ACT_APPLY_SNAPSHOT_POLICY (.json reason) self.UserCred false,
    Effect.NotifySystemErrorWithCtx disk.Id disk.Name env.consts.DISK_APPLY_SNAPSHOT_FAIL
      (env.stringOf reason),
    Effect.SetStageFailed reason]

/-- The statements of `(*SnapshotPolicyApplyTask).OnInit` after its
`need_detach` block (lines 79 to 90), `snapshotPolicy` being nil when that
block was skipped. -/
def SnapshotPolicyApplyTask.OnInit.request (env : Env) (self : STask) (disk : SDisk)
    (data : JSONObject) (spd : SSnapshotPolicyDisk) (snapshotPolicy : Option SSnapshotPolicy) :
    STask × List Effect :=
  let self := { self with
    Params := Add self.Params (NewString spd.SnapshotpolicyId) "snapshotpolicy_id" }
  let calls := [Effect.SetStage "OnPreSnapshotPolicyApplyComplete" none,
    Effect.RequestPreSnapshotPolicyApply self.UserCred disk snapshotPolicy data]
  match env.RequestPreSnapshotPolicyApply disk snapshotPolicy data with
  | some err =>
    (self, calls ++ SnapshotPolicyApplyTask.taskFail env self disk (some spd)
      (NewString err.Error))
  | none => (self, calls)

/-- Method `(*SnapshotPolicyApplyTask).OnInit`: the task afterwards and the
calls made. -/
def SnapshotPolicyApplyTask.OnInit (env : Env) (self : STask) (disk : SDisk)
    (data : JSONObject) : STask × List Effect :=
  let spd := env.UnmarshalSnapshotPolicyDisk data "snapshotPolicyDisk"
  if Contains data "need_detach" then
    let snapshotPolicyID := (env.GetString data "need_detach").getD ""
    match env.FetchById snapshotPolicyID with
    | .error err =>
      (self, SnapshotPolicyApplyTask.taskFail env self disk (some spd) (NewString err.Error))
    | .ok model => SnapshotPolicyApplyTask.OnInit.request env self disk data spd (some model)
  else
    SnapshotPolicyApplyTask.OnInit.request env self disk data spd none

/-- Method `(*SnapshotPolicyApplyTask).OnPreSnapshotPolicyApplyCompleteFailed`. -/
def SnapshotPolicyApplyTask.OnPreSnapshotPolicyApplyCompleteFailed (env : Env) (self : STask)
    (disk : SDisk) (reason : JSONObject) : List Effect :=
  let spId := (env.GetString self.Params "snapshotpolicy_id").getD ""
  match env.FetchBySnapshotPolicyDisk spId disk.Id with
  | (_, some _) => SnapshotPolicyApplyTask.taskFail env self disk none reason
  | (spd, none) => SnapshotPolicyApplyTask.taskFail env self disk spd reason

/-- The statements of `OnPreSnapshotPolicyApplyComplete` after its
`need_detach` block (lines 124 to 133). -/
def SnapshotPolicyApplyTask.OnPreSnapshotPolicyApplyComplete.request (env : Env)
    (self : STask) (disk : SDisk) (data : JSONObject) (spd : SSnapshotPolicyDisk)
    (snapshotPolicy : SSnapshotPolicy) : List Effect :=
  [Effect.SetStage "OnSnapshotPolicyApply" none,
    Effect.RequestApplySnapshotPolicy self.UserCred disk snapshotPolicy data] ++
  (match env.RequestApplySnapshotPolicy disk snapshotPolicy data with
    | some err =>
      SnapshotPolicyApplyTask.taskFail env self disk (some spd) (NewString err.Error)
    | none => [])

/-- Method `(*SnapshotPolicyApplyTask).OnPreSnapshotPolicyApplyComplete`. -/
def SnapshotPolicyApplyTask.OnPreSnapshotPolicyApplyComplete (env : Env) (self : STask)
    (disk : SDisk) (data : JSONObject) : List Effect :=
  let snapshotPolicy := env.UnmarshalSnapshotPolicy data "snapshotPolicy"
  let spd := env.UnmarshalSnapshotPolicyDisk data "snapshotPolicyDisk"
  if Contains data "need_detach" then
    let snapshotPolicyID := (env.GetString data "need_detach").getD ""
    match env.FetchBySnapshotPolicyDisk snapshotPolicyID disk.Id with
    | (_, some err) =>
      SnapshotPolicyApplyTask.taskFail env self disk (some spd) (NewString err.Error)
    | (some spd1, none) =>
      Effect.RealDetach spd1 self.UserCred ::
        SnapshotPolicyApplyTask.OnPreSnapshotPolicyApplyComplete.request env self disk data spd
          snapshotPolicy
    | (none, none) =>
      SnapshotPolicyApplyTask.OnPreSnapshotPolicyApplyComplete.request env self disk data spd
        snapshotPolicy
  else
    SnapshotPolicyApplyTask.OnPreSnapshotPolicyApplyComplete.request env self disk data spd
      snapshotPolicy

/-- Method `(*SnapshotPolicyApplyTask).OnSnapshotPolicyApplyFailed`. -/
def SnapshotPolicyApplyTask.OnSnapshotPolicyApplyFailed (env : Env) (self : STask)
    (disk : SDisk) (reason : JSONObject) : List Effect :=
  let spId := (env.GetString self.Params "snapshotpolicy_id").getD ""
  match env.FetchBySnapshotPolicyDisk spId disk.Id with
  | (_, some _) => SnapshotPolicyApplyTask.taskFail env self disk none reason
  | (spd, none) => SnapshotPolicyApplyTask.taskFail env self disk spd reason

/-- Method `(*SnapshotPolicyApplyTask).OnSnapshotPolicyApply`. -/
def SnapshotPolicyApplyTask.OnSnapshotPolicyApply (env : Env) (self : STask)
    (disk : SDisk) (data : JSONObject) : List Effect :=
  let sp_id := (env.GetString data "snapshotpolicy_id").getD ""
  (match env.FetchBySnapshotPolicyDisk sp_id disk.Id with
    | (_, some _) => [Effect.Errorf "Fetch snapshotpolicy disk failed"]
    | (some spd, none) =>
      [Effect.SetStatus (.snapshotpolicydisk spd) self.UserCred
        env.consts.SNAPSHOT_POLICY_DISK_READY ""] ++
      (match env.FetchSnapshotPolicyById spd.SnapshotpolicyId with
        | .ok snapshotpolicy =>
          [Effect.LogEvent (.snapshotpolicy snapshotpolicy)
              env.consts.db_ACT_SNAPSHOT_POLICY_BIND_DISK (.text "") self.UserCred,
            Effect.AddActionLogWithStartable (.snapshotpolicy snapshotpolicy)
              env.consts.logclient_ACT_BIND_DISK (.text "") self.UserCred true]
        | .error _ => [])
    | (none, none) => []) ++
  [Effect.LogEvent (.disk disk) env.consts.db_ACT_APPLY_SNAPSHOT_POLICY (.text "")
      self.UserCred,
    Effect.AddActionLogWithStartable (.disk disk)
      env.consts.logclient_ACT_APPLY_SNAPSHOT_POLICY (.text "") self.UserCred true,
    Effect.SetStageComplete none]

/-- Method `(*SnapshotPolicyCancelTask).taskFail`; a nil `spd` is `none`. -/
def SnapshotPolicyCancelTask.taskFail (env : Env) (self : STask) (disk : SDisk)
    (spd : Option SSnapshotPolicyDisk) (reason : JSONObject) : List Effect :=
  (match spd with
    | some spd =>
      [Effect.SetStatus (.snapshotpolicydisk spd) self.UserCred
        env.consts.SNAPSHOT_POLICY_DISK_DELETE_FAILED ""] ++
      (match env.FetchSnapshotPolicyById spd.SnapshotpolicyId with
        | .ok snapshotpolicy =>
          [Effect.LogEvent (.snapshotpolicy snapshotpolicy)
              env.consts.db_ACT_SNAPSHOT_POLICY_UNBIND_DISK_FAIL (.text "") self.UserCred,
            Effect.AddActionLogWithStartable (.snapshotpolicy snapshotpolicy)
              env.consts.logclient_ACT_UNBIND_DISK (.text "") self.UserCred false]
        | .error _ => [])
    | none => []) ++
  [Effect.SetStatus (.disk disk) self.UserCred env.consts.DISK_CALCEL_SNAPSHOT_FAIL
      (env.stringOf reason),
    Effect.LogEvent (.disk disk) env.consts.db_ACT_CANCEL_SNAPSHOT_POLICY_FAILED
      (.json reason) self.UserCred,
    Effect.AddActionLogWithStartable (.disk disk)
      env.consts.logclient_ACT_CANCEL_SNAPSHOT_POLICY (.json reason) self.UserCred false,
    Effect.SetStageFailed reason]

/-- Method `(*SnapshotPolicyCancelTask).OnInit`: the task afterwards and the
calls made. -/
def SnapshotPolicyCancelTask.OnInit (env : Env) (self : STask) (disk : SDisk)
    (data : JSONObject) : STask × List Effect :=
  let snapshotPolicyID := (env.GetString data "snapshot_policy_id").getD ""
  let spd := env.UnmarshalSnapshotPolicyDisk data "snapshotPolicyDisk"
  let self := { self with
    Params := Add self.Params (NewString snapshotPolicyID) "snapshotpolicy_id" }
  match env.FetchById snapshotPolicyID with
  | .error err =>
    (self, SnapshotPolicyCancelTask.taskFail env self disk (some spd)
      (NewString ("failed to fetch disk by id " ++ snapshotPolicyID ++ ": " ++ err.Error)))
  | .ok snapshotPolicy =>
    let calls := [Effect.SetStage "OnSnapshotPolicyCancel" none,
      Effect.RequestCancelSnapshotPolicy self.UserCred disk snapshotPolicy data]
    match env.RequestCancelSnapshotPolicy disk snapshotPolicy data with
    | some err =>
      (self, calls ++ SnapshotPolicyCancelTask.taskFail env self disk (some spd)
        (NewString err.Error))
    | none => (self, calls)

/-- Method `(*SnapshotPolicyCancelTask).OnSnapshotPolicyCancelFailed`. -/
def SnapshotPolicyCancelTask.OnSnapshotPolicyCancelFailed (env : Env) (self : STask)
    (disk : SDisk) (reason : JSONObject) : List Effect :=
  let spId := (env.GetString self.Params "snapshotpolicy_id").getD ""
  match env.FetchBySnapshotPolicyDisk spId disk.Id with
  | (_, some _) => SnapshotPolicyCancelTask.taskFail env self disk none reason
  | (spd, none) => SnapshotPolicyCancelTask.taskFail env self disk spd reason

/-- Method `(*SnapshotPolicyCancelTask).OnSnapshotPolicyCancel`. -/
def SnapshotPolicyCancelTask.OnSnapshotPolicyCancel (env : Env) (self : STask)
    (disk : SDisk) (data : JSONObject) : List Effect :=
  let sp_id := (env.GetString data "snapshotpolicy_id").getD ""
  let fetched := env.FetchBySnapshotPolicyDisk sp_id disk.Id
  (match fetched.2 with
    | some _ => [Effect.Errorf "Fechsnapshotpolicy disk failed"]
    | none => []) ++
  (match fetched.1 with
    | some spd =>
      [Effect.RealDetach spd self.UserCred] ++
      (match env.FetchSnapshotPolicyById spd.SnapshotpolicyId with
        | .ok snapshotpolicy =>
          [Effect.LogEvent (.snapshotpolicy snapshotpolicy)
              env.consts.db_ACT_SNAPSHOT_POLICY_UNBIND_DISK (.text "") self.UserCred,
            Effect.AddActionLogWithStartable (.snapshotpolicy snapshotpolicy)
              env.consts.logclient_ACT_UNBIND_DISK (.text "") self.UserCred true]
        | .error _ => [])
    | none => []) ++
  [Effect.LogEvent (.disk disk) env.consts.db_ACT_CANCEL_SNAPSHOT_POLICY (.text "")
      self.UserCred,
    Effect.AddActionLogWithStartable (.disk disk)
      env.consts.logclient_ACT_CANCEL_SNAPSHOT_POLICY (.text "") self.UserCred true,
    Effect.SetStageComplete none]

/-- The methods that snapshotpolicy_disk_task.go declares on
`SnapshotPolicyApplyTask`, in file order. -/
def SnapshotPolicyApplyTask.methods : List String :=
  ["taskFail", "OnInit", "OnPreSnapshotPolicyApplyCompleteFailed",
    "OnPreSnapshotPolicyApplyComplete", "OnSnapshotPolicyApplyFailed",
    "OnSnapshotPolicyApply"]

/-- The methods that snapshotpolicy_disk_task.go declares on
`SnapshotPolicyCancelTask`, in file order. -/
def SnapshotPolicyCancelTask.methods : List String :=
  ["taskFail", "OnInit", "OnSnapshotPolicyCancelFailed", "OnSnapshotPolicyCancel"]

/-- Recogniser of a `SetStage` call. -/
def Effect.isSetStage : Effect → Bool
  | .SetStage _ _ => true
  | _ => false

/-- Recogniser of a `SetStageComplete` call. -/
def Effect.isSetStageComplete : Effect → Bool
  | .SetStageComplete _ => true
  | _ => false

/-- Recogniser of a `SetStageFailed` call. -/
def Effect.isSetStageFailed : Effect → Bool
  | .SetStageFailed _ => true
  | _ => false

/-- Recogniser of a control primitive: `SetStage`, `SetStageComplete` or
`SetStageFailed`. -/
def Effect.isControl (e : Effect) : Bool :=
  e.isSetStage || e.isSetStageComplete || e.isSetStageFailed

/-- Recogniser of an `OpsLog.LogEvent` call. -/
def Effect.isLogEvent : Effect → Bool
  | .LogEvent _ _ _ _ => true
  | _ => false

/-- The stage names a list of calls passes to `SetStage`. -/
def stagesSet : List Effect → List String
  | [] => []
  | .SetStage stageName _ :: rest => stageName :: stagesSet rest
  | _ :: rest => stagesSet rest

/-- Recogniser of a driver request that the region driver answers with an
error. -/
def Effect.requestRejected (env : Env) : Effect → Bool
  | .RequestPreSnapshotPolicyApply _ disk sp data =>
    (env.RequestPreSnapshotPolicyApply disk sp data).isSome
  | .RequestApplySnapshotPolicy _ disk sp data =>
    (env.RequestApplySnapshotPolicy disk sp data).isSome
  | .RequestCancelSnapshotPolicy _ disk sp data =>
    (env.RequestCancelSnapshotPolicy disk sp data).isSome
  | _ => false

/-- Recogniser of an `OpsLog.LogEvent` call about the given object. -/
def Effect.isLogEventOn (obj : Subject) : Effect → Bool
  | .LogEvent o _ _ _ => decide (o = obj)
  | _ => false

/-- The two task types that snapshotpolicy_disk_task.go registers in its
`init()`. -/
inductive TaskType where
  | SnapshotPolicyApplyTask
  | SnapshotPolicyCancelTask
deriving DecidableEq, Repr

/-- The methods the file declares on a task type. -/
def TaskType.methods : TaskType → List String
  | .SnapshotPolicyApplyTask => SnapshotPolicyApplyTask.methods
  | .SnapshotPolicyCancelTask => SnapshotPolicyCancelTask.methods

/-- The stage names that the methods of a task type pass to `SetStage`, each
method run on the given task, disk, binding, data and reason. -/
def TaskType.stagesPassed (env : Env) (self : STask) (disk : SDisk)
    (spd : Option SSnapshotPolicyDisk) (data reason : JSONObject) : TaskType → List String
  | .SnapshotPolicyApplyTask =>
    stagesSet (SnapshotPolicyApplyTask.taskFail env self disk spd reason) ++
    stagesSet (SnapshotPolicyApplyTask.OnInit env self disk data).2 ++
    stagesSet (SnapshotPolicyApplyTask.OnPreSnapshotPolicyApplyCompleteFailed env self disk
      reason) ++
    stagesSet (SnapshotPolicyApplyTask.OnPreSnapshotPolicyApplyComplete env self disk data) ++
    stagesSet (SnapshotPolicyApplyTask.OnSnapshotPolicyApplyFailed env self disk reason) ++
    stagesSet (SnapshotPolicyApplyTask.OnSnapshotPolicyApply env self disk data)
  | .SnapshotPolicyCancelTask =>
    stagesSet (SnapshotPolicyCancelTask.taskFail env self disk spd reason) ++
    stagesSet (SnapshotPolicyCancelTask.OnInit env self disk data).2 ++
    stagesSet (SnapshotPolicyCancelTask.OnSnapshotPolicyCancelFailed env self disk reason) ++
    stagesSet (SnapshotPolicyCancelTask.OnSnapshotPolicyCancel env self disk data)

/-- Sample values for the constants: each one its own identifier. -/
def sampleConsts : Consts where
  DISK_APPLY_SNAPSHOT_FAIL := "DISK_APPLY_SNAPSHOT_FAIL"
  DISK_CALCEL_SNAPSHOT_FAIL := "DISK_CALCEL_SNAPSHOT_FAIL"
  SNAPSHOT_POLICY_DISK_READY := "SNAPSHOT_POLICY_DISK_READY"
  SNAPSHOT_POLICY_DISK_DELETE_FAILED := "SNAPSHOT_POLICY_DISK_DELETE_FAILED"
  db_ACT_SNAPSHOT_POLICY_BIND_DISK := "db.ACT_SNAPSHOT_POLICY_BIND_DISK"
  db_ACT_SNAPSHOT_POLICY_BIND_DISK_FAIL := "db.ACT_SNAPSHOT_POLICY_BIND_DISK_FAIL"
  db_ACT_SNAPSHOT_POLICY_UNBIND_DISK := "db.ACT_SNAPSHOT_POLICY_UNBIND_DISK"
  db_ACT_SNAPSHOT_POLICY_UNBIND_DISK_FAIL := "db.ACT_SNAPSHOT_POLICY_UNBIND_DISK_FAIL"
  db_ACT_APPLY_SNAPSHOT_POLICY := "db.ACT_APPLY_SNAPSHOT_POLICY"
  db_ACT_APPLY_SNAPSHOT_POLICY_FAILED := "db.ACT_APPLY_SNAPSHOT_POLICY_FAILED"
  db_ACT_CANCEL_SNAPSHOT_POLICY := "db.ACT_CANCEL_SNAPSHOT_POLICY"
  db_ACT_CANCEL_SNAPSHOT_POLICY_FAILED := "db.ACT_CANCEL_SNAPSHOT_POLICY_FAILED"
  logclient_ACT_BIND_DISK := "logclient.ACT_BIND_DISK"
  logclient_ACT_UNBIND_DISK := "logclient.ACT_UNBIND_DISK"
  logclient_ACT_APPLY_SNAPSHOT_POLICY := "logclient.ACT_APPLY_SNAPSHOT_POLICY"
  logclient_ACT_CANCEL_SNAPSHOT_POLICY := "logclient.ACT_CANCEL_SNAPSHOT_POLICY"

/-- A sample environment: the binding "spd1" of policy "sp1" exists, every
lookup and every detach succeeds, and the region driver accepts each request
exactly when `driverAccepts` holds; otherwise it answers "driver timeout". -/
def sampleEnv (driverAccepts : Bool) : Env where
  consts := sampleConsts
  stringOf := fun o =>
    match o with
    | JSONString s => "\"" ++ s ++ "\""
    | _ => "null"
  GetString := fun o key =>
    match Get o key with
    | some (JSONString s) => some s
    | _ => none
  UnmarshalSnapshotPolicyDisk := fun _ _ => ⟨"spd1", "sp1"⟩
  UnmarshalSnapshotPolicy := fun _ _ => ⟨"sp1"⟩
  FetchById := fun id => .ok ⟨id⟩
  FetchSnapshotPolicyById := fun id => .ok ⟨id⟩
  FetchBySnapshotPolicyDisk := fun spId _ => (some ⟨"spd1", spId⟩, none)
  RealDetach := fun _ => none
  RequestPreSnapshotPolicyApply := fun _ _ _ =>
    if driverAccepts then none else some ⟨"driver timeout"⟩
  RequestApplySnapshotPolicy := fun _ _ _ =>
    if driverAccepts then none else some ⟨"driver timeout"⟩
  RequestCancelSnapshotPolicy := fun _ _ _ =>
    if driverAccepts then none else some ⟨"driver timeout"⟩

/-- A sample task: parameters that name policy "sp1", run by "admin". -/
def sampleTask : STask where
  Params := JSONDict [("snapshotpolicy_id", JSONString "sp1")]
  UserCred := "admin"

/-- A sample disk. -/
def sampleDisk : SDisk where
  Id := "disk1"
  Name := "data-disk"

/-- Sample handler data naming policy "sp1". -/
def sampleData : JSONObject :=
  JSONDict [("snapshotpolicy_id", JSONString "sp1"), ("snapshot_policy_id", JSONString "sp1")]

/-- The control calls of a handler that advances to `stageName` around a
driver request: exactly one control call when no request of the run was
rejected, and `SetStage stageName` followed by one `SetStageFailed`, nothing
else, when the driver rejected the request. -/
def oneControlCallUnlessRejected (env : Env) (stageName : String) (calls : List Effect) :
    Prop :=
  (calls.any (Effect.requestRejected env) = false → calls.countP Effect.isControl = 1) ∧
  (calls.any (Effect.requestRejected env) = true →
    ∃ reason, calls.filter Effect.isControl =
      [Effect.SetStage stageName none, Effect.SetStageFailed reason])

end compute.tasks

namespace taskman

open jsonutils jsonutils.JSONObject

/-- Modelled from the spec: the status of a TaskRecord (section 3), one of
init, running, stage_complete, stage_failed, complete, failed. The task
manager that declares it is not in the tree. -/
inductive TaskStatus where
  | init
  | running
  | stage_complete
  | stage_failed
  | complete
  | failed
deriving DecidableEq, Repr

/-- Modelled from the spec: a terminal status is complete or failed
(section 3, "A terminal status (complete/failed) is immutable"). -/
def TaskStatus.isTerminal : TaskStatus → Bool
  | .complete => true
  | .failed => true
  | _ => false

/-- Modelled from the spec: the TaskRecord of section 3, field by field: id,
task-type name, current stage name, status, params, optional parent task id,
acting credentials, the domain object operated on, and the created and updated
timestamps. -/
structure TaskRecord where
  id : String
  taskName : String
  stage : String
  status : TaskStatus
  params : JSONObject
  parentTaskId : Option String
  userCred : String
  objectRef : String
  createdAt : Nat
  updatedAt : Nat

/-- Modelled from the spec: the repository contract of section 6 over a store
`σ`: `Load`, `CompareAndSetStage` and `MarkTerminal`. -/
structure Repository (σ : Type) where
  Load : σ → String → Option TaskRecord
  CompareAndSetStage : σ → String → String → String → JSONObject → σ × Bool
  MarkTerminal : σ → String → TaskStatus → JSONObject → σ

/-- Modelled from the spec: the three roles of a handler (section 4.2): the
stage is entered, or its asynchronous operation reported success or failure. -/
inductive InvocationKind where
  | enter
  | complete
  | failed
deriving DecidableEq, Repr

/-- Modelled from the spec: how a handler ends (section 4.2, step 5): one of
the three control primitives, or a pending external callback. -/
inductive HandlerOutcome where
  | advanceTo (nextStage : String) (seedParams : JSONObject)
  | complete (result : JSONObject)
  | fail (reason : JSONObject)
  | pending

/-- Modelled from the spec: what the engine is given: the stage registry
(`Resolve`, section 4.1), the kind of an invocation as read off its payload,
the handlers themselves, and the reason recorded for an unresolvable
handler. -/
structure Engine where
  Resolve : String → Option (List String)
  kindOf : JSONObject → InvocationKind
  handler : String → String → TaskRecord → JSONObject → HandlerOutcome
  configurationError : String → String → JSONObject

/-- Modelled from the spec: what one invocation does besides writing to the
repository: it runs a handler, and it re-queues the task after an advance. -/
inductive EngineEffect where
  | invoke (taskName : String) (handlerName : String) (taskId : String)
  | requeue (taskId : String)
deriving DecidableEq, Repr

/-- Modelled from the spec: the handler name of section 4.2, step 2: "On" and
the stage, followed by "Complete" or "Failed" for these kinds of
invocation. -/
def handlerName (stage : String) : InvocationKind → String
  | .enter => "On" ++ stage
  | .complete => "On" ++ stage ++ "Complete"
  | .failed => "On" ++ stage ++ "Failed"

/-- Modelled from the spec: `TaskManager.execTask`, which worker.go calls and
which is not in the tree, after section 4.2 "Per invocation": (1) load the
record, a terminal status being a no-op; (2) compute the handler name; (3) an
unresolvable handler marks the task failed with a configuration-error reason;
(4) run the handler; (5) persist what the handler chose: advance (and
re-queue), complete or fail, or nothing for a pending callback. Returns the
store afterwards and the effects. -/
def execTask {σ : Type} (repo : Repository σ) (eng : Engine) (store : σ) (taskId : String)
    (data : JSONObject) : σ × List EngineEffect :=
  match repo.Load store taskId with
  | none => (store, [])
  | some record =>
    if record.status.isTerminal then
      (store, [])
    else
      let name := handlerName record.stage (eng.kindOf data)
      let registered :=
        match eng.Resolve record.taskName with
        | some handlers => decide (name ∈ handlers)
        | none => false
      if !registered then
        (repo.MarkTerminal store taskId .failed (eng.configurationError record.taskName name),
          [])
      else
        let ran := EngineEffect.invoke record.taskName name taskId
        match eng.handler record.taskName name record data with
        | .advanceTo nextStage seedParams =>
          ((repo.CompareAndSetStage store taskId record.stage nextStage seedParams).1,
            [ran, EngineEffect.requeue taskId])
        | .complete result => (repo.MarkTerminal store taskId .complete result, [ran])
        | .fail reason => (repo.MarkTerminal store taskId .failed reason, [ran])
        | .pending => (store, [ran])

/-- Method `(*taskTask).Run` of worker.go: it calls `TaskManager.execTask` on
the unit's task id and data. -/
def taskTask.Run {σ : Type} (repo : Repository σ) (eng : Engine) (store : σ) (t : taskTask) :
    σ × List EngineEffect :=
  execTask repo eng store t.taskId t.data

/-- A sample repository: the store is the list of records, looked up by id. -/
def sampleRepository : Repository (List TaskRecord) where
  Load := fun store id => store.find? (fun r => r.id == id)
  CompareAndSetStage := fun store id expected newStage _ =>
    (store.map (fun r =>
      if r.id == id && r.stage == expected then { r with stage := newStage } else r),
      store.any (fun r => r.id == id && r.stage == expected))
  MarkTerminal := fun store id status _ =>
    store.map (fun r => if r.id == id then { r with status := status } else r)

/-- A sample engine: one task type with the handler "OnInit", which completes
the task. -/
def sampleEngine : Engine where
  Resolve := fun name => if name = "DiskDeleteTask" then some ["OnInit"] else none
  kindOf := fun _ => .enter
  handler := fun _ _ _ _ => .complete JSONNull
  configurationError := fun _ _ => JSONString "no such handler"

/-- A sample record of a finished task. -/
def sampleCompleteRecord : TaskRecord where
  id := "t9"
  taskName := "DiskDeleteTask"
  stage := "Init"
  status := .complete
  params := JSONDict []
  parentTaskId := none
  userCred := "admin"
  objectRef := "disk1"
  createdAt := 100
  updatedAt := 160

end taskman

namespace compute.tasks

open jsonutils jsonutils.JSONObject

/-- The `success` argument of an `AddActionLogWithStartable` call. -/
def Effect.actionLogSuccess : Effect → Option Bool
  | .AddActionLogWithStartable _ _ _ _ success => some success
  | _ => none

/-- Recogniser of a `NotifySystemErrorWithCtx` call. -/
def Effect.isNotifySystemError : Effect → Bool
  | .NotifySystemErrorWithCtx _ _ _ _ => true
  | _ => false

end compute.tasks

namespace mcclient.options.compute

open jsonutils jsonutils.JSONObject

/-- The embedded `options.BaseIdOptions`, declared outside the tree, by its
id. -/
structure BaseIdOptions where
  ID : String
deriving DecidableEq, Repr

/-- The struct `MongoDBUpdateOptions` of mongodb.go. -/
structure MongoDBUpdateOptions where
  BaseIdOptions : BaseIdOptions
  Name : String
  Description : String
  Delete : String
deriving DecidableEq, Repr

/-- Method `(*MongoDBUpdateOptions).Params`. `StructToParams` is
`options.StructToParams`, outside the tree; it answers with the fields of a
`*jsonutils.JSONDict` or with an error. A nil result is `none`. -/
def MongoDBUpdateOptions.Params
    (StructToParams : MongoDBUpdateOptions → Except error (List (String × JSONObject)))
    (opts : MongoDBUpdateOptions) : Option JSONObject × Option error :=
  match StructToParams opts with
  | .error err => (none, some err)
  | .ok fields =>
    let params := JSONDict fields
    let params :=
      if opts.Delete.utf8ByteSize > 0 then
        if opts.Delete = "disable" then
          Add params JSONTrue "disable_delete"
        else
          Add params JSONFalse "disable_delete"
      else params
    (some params, none)

end mcclient.options.compute

/-- A Go `byte`: a number below 2^8. -/
abbrev Byte := Fin 256

/-- A Go `[]byte`, or a Go string, by its bytes. -/
abbrev Bytes := List Byte

namespace errors

/-- Function `errors.New` of github.com/pkg/errors. -/
def New (msg : String) : error := ⟨msg⟩

/-- Function `errors.Wrap` of github.com/pkg/errors: the message, a colon and
the text of the wrapped error. -/
def Wrap (err : error) (msg : String) : error := ⟨msg ++ ": " ++ err.Error⟩

end errors

namespace bytes

/-- Function `bytes.IndexByte`; Go's -1 is `none`. -/
def IndexByte : Bytes → Byte → Option Nat
  | [], _ => none
  | b :: rest, c => if b = c then some 0 else (IndexByte rest c).map (· + 1)

/-- The table `asciiSpace` of package bytes: tab, newline, vertical tab, form
feed, carriage return and space. -/
def asciiSpace (c : Byte) : Bool :=
  c = 9 || c = 10 || c = 11 || c = 12 || c = 13 || c = 32

/-- The second loop of `bytes.TrimSpace`, which walks back from the end of
`s[start:]`; it is given that slice reversed. `TrimFunc` is the slow path
`TrimFunc(·, unicode.IsSpace)`, taken at the first byte that is not ASCII. -/
def TrimSpace.stop (TrimFunc : Bytes → Bytes) : Bytes → Bytes
  | [] => []
  | c :: rest =>
    if c.val ≥ 128 then TrimFunc (c :: rest).reverse
    else if asciiSpace c then TrimSpace.stop TrimFunc rest
    else (c :: rest).reverse

/-- Function `bytes.TrimSpace`: the first loop skips leading ASCII space, the
second loop trailing ASCII space. -/
def TrimSpace (TrimFunc : Bytes → Bytes) : Bytes → Bytes
  | [] => []
  | c :: rest =>
    if c.val ≥ 128 then TrimFunc (c :: rest)
    else if asciiSpace c then TrimSpace TrimFunc rest
    else TrimSpace.stop TrimFunc (c :: rest).reverse

/-- The chunks that successive `Read` calls with a buffer of `n` bytes copy
out of a `bytes.Reader`: `cur` is the chunk being filled, `room` the space
left in it. -/
def chunks (n : Nat) : Bytes → Nat → Bytes → List Bytes
  | [], _, cur => if cur.isEmpty then [] else [cur]
  | b :: rest, 0, cur => cur :: chunks n rest (n - 1) [b]
  | b :: rest, room + 1, cur => chunks n rest room (cur ++ [b])

end bytes

namespace base64

/-- The alphabet `encodeURL` of encoding/base64. -/
def encodeURL : Bytes :=
  "ABCDEFGHIJKLMNOPQRSTUVWXYZabcdefghijklmnopqrstuvwxyz0123456789-_".toList.map
    (fun c => Fin.ofNat c.toNat)

/-- The character of a 6-bit value: `enc.encode[v]`. -/
def encodeSextet (v : Nat) : Byte := encodeURL.getD v 0

/-- The table `enc.decodeMap`: the 6-bit value of a character of the
alphabet, `none` (Go's 0xff) for any other byte. -/
def decodeMap (c : Byte) : Option Nat :=
  if encodeURL.indexOf c < 64 then some (encodeURL.indexOf c) else none

/-- Method `RawURLEncoding.Encode` (also what `RawURLEncoding.EncodeToString`
returns, and what an encoder of `NewEncoder` has written after `Close`): three
bytes give four characters, a rest of one byte gives two and a rest of two
bytes gives three; no padding. Shifts and ors of disjoint bit fields are
written with `*`, `/`, `%` and `+`. -/
def Encode : Bytes → Bytes
  | a :: b :: c :: rest =>
    let val := a.val * 65536 + b.val * 256 + c.val
    encodeSextet (val / 262144 % 64) :: encodeSextet (val / 4096 % 64) ::
      encodeSextet (val / 64 % 64) :: encodeSextet (val % 64) :: Encode rest
  | [a, b] =>
    let val := a.val * 65536 + b.val * 256
    [encodeSextet (val / 262144 % 64), encodeSextet (val / 4096 % 64),
      encodeSextet (val / 64 % 64)]
  | [a] =>
    let val := a.val * 65536
    [encodeSextet (val / 262144 % 64), encodeSextet (val / 4096 % 64)]
  | [] => []

/-- The error `base64.CorruptInputError` for a byte offset of the input, with
the text of its `Error()`. -/
def CorruptInputError (offset : Nat) : error :=
  ⟨"illegal base64 data at input byte " ++ Nat.repr offset⟩

/-- The 6-bit values of the characters of the input from the offset `si` on:
carriage returns and newlines are skipped, any other byte outside the alphabet
is an error at its offset (`CorruptInputError(si - 1)` after `si++`). -/
def decodeChars (si : Nat) : Bytes → Except error (List Nat)
  | [] => .ok []
  | c :: rest =>
    match decodeMap c with
    | some v =>
      match decodeChars (si + 1) rest with
      | .ok vs => .ok (v :: vs)
      | .error err => .error err
    | none =>
      if c = 10 ∨ c = 13 then decodeChars (si + 1) rest else .error (CorruptInputError si)

/-- The bytes of a sequence of 6-bit values, as `decodeQuantum` produces them
without padding and without strict mode: four values give three bytes, a last
group of two gives one byte and of three gives two bytes, a single left-over
value is an error, found at the end of an input of `srcLen` bytes
(`CorruptInputError(si - j)` with `si` the length and `j` one). -/
def decodeQuanta (srcLen : Nat) : List Nat → Except error Bytes
  | v0 :: v1 :: v2 :: v3 :: rest =>
    let val := v0 * 262144 + v1 * 4096 + v2 * 64 + v3
    match decodeQuanta srcLen rest with
    | .ok out =>
      .ok (Fin.ofNat (val / 65536 % 256) :: Fin.ofNat (val / 256 % 256) ::
        Fin.ofNat (val % 256) :: out)
    | .error err => .error err
  | [v0, v1, v2] =>
    let val := v0 * 262144 + v1 * 4096 + v2 * 64
    .ok [Fin.ofNat (val / 65536 % 256), Fin.ofNat (val / 256 % 256)]
  | [v0, v1] =>
    let val := v0 * 262144 + v1 * 4096
    .ok [Fin.ofNat (val / 65536 % 256)]
  | [_] => .error (CorruptInputError (srcLen - 1))
  | [] => .ok []

/-- Method `RawURLEncoding.DecodeString`: the decoded bytes, or the error. -/
def DecodeString (src : Bytes) : Except error Bytes :=
  match decodeChars 0 src with
  | .ok vs => decodeQuanta src.length vs
  | .error err => .error err

/-- Method `RawURLEncoding.DecodedLen` for an encoding without padding. -/
def DecodedLen (n : Nat) : Nat := n * 6 / 8

/-- The statements `dst := make([]byte, DecodedLen(len(src)))` and
`Decode(dst, src)` together: the buffer afterwards, which holds the decoded
bytes followed by the zero bytes `Decode` did not write, or the error. -/
def DecodeToBuffer (src : Bytes) : Except error Bytes :=
  match DecodeString src with
  | .ok out => .ok (out ++ List.replicate (DecodedLen src.length - out.length) 0)
  | .error err => .error err

end base64

namespace io

/-- A non-nil error of `Read`: the sentinel `io.EOF`, told apart from every
other error as Go's comparison `err == io.EOF` does. -/
inductive ReadError where
  | EOF
  | other (err : error)

/-- An `io.Reader`, by the results `(buf[:n], err)` of its successive `Read`
calls. A reader whose list is used up answers `(0, io.EOF)`. -/
abbrev Reader := List (Bytes × Option ReadError)

/-- The bytes a reader delivers up to and including its first read that
returns an error. -/
def Reader.bytes : Reader → Bytes
  | [] => []
  | (data, none) :: rest => data ++ Reader.bytes rest
  | (data, some _) :: _ => data

/-- A reader none of whose reads, up to the first `io.EOF`, returns another
error. -/
def Reader.clean : Reader → Bool
  | [] => true
  | (_, none) :: rest => Reader.clean rest
  | (_, some .EOF) :: _ => true
  | (_, some (.other _)) :: _ => false

end io

namespace bytes

/-- Function `bytes.NewReader`, read with a buffer of `n` bytes: each read
copies the next `n` bytes at most, without error; at the end of the data the
reader answers `(0, io.EOF)`. -/
def NewReader (n : Nat) (b : Bytes) : io.Reader :=
  (chunks n b n []).map (fun chunk => (chunk, none))

end bytes

namespace jws

/-- The byte of the period that separates the segments. -/
def period : Byte := 46

/-- The local variables of `SplitCompact`. -/
structure SplitState where
  protectedHdr : Bytes
  payload : Bytes
  signature : Bytes
  periods : Nat
  state : Nat
  sofar : Bytes

/-- The `switch state` of `SplitCompact`, on `sofar[:i]`. -/
def SplitCompact.assign (st : SplitState) (i : Nat) : SplitState :=
  match st.state with
  | 0 => { st with protectedHdr := st.sofar.take i, state := st.state + 1 }
  | 1 => { st with payload := st.sofar.take i, state := st.state + 1 }
  | 2 => { st with signature := st.sofar.take i }
  | _ => st

/-- The statement `if len(sofar) > i { sofar = sofar[i+1:] }`. -/
def SplitCompact.shorten (st : SplitState) (i : Nat) : SplitState :=
  if st.sofar.length > i then { st with sofar := st.sofar.drop (i + 1) } else st

/-- The inner loop `for loop := true; loop; { ... }` of `SplitCompact`, `eof`
telling whether the read returned `io.EOF`. Every pass but the last removes a
period from `sofar`, so `len(sofar) + 1` passes are enough; `fuel` bounds the
passes. -/
def SplitCompact.inner (eof : Bool) : Nat → SplitState → SplitState
  | 0, st => st
  | fuel + 1, st =>
    match bytes.IndexByte st.sofar period with
    | none =>
      if !eof then
        st
      else
        let i := st.sofar.length
        SplitCompact.shorten (SplitCompact.assign st i) i
    | some i =>
      let st := { st with periods := st.periods + 1 }
      SplitCompact.inner eof fuel (SplitCompact.shorten (SplitCompact.assign st i) i)

/-- The statements of `SplitCompact` after its outer loop. -/
def SplitCompact.finish (st : SplitState) : Except error (Bytes × Bytes × Bytes) :=
  if st.periods ≠ 2 then
    .error (errors.New "invalid number of segments")
  else
    .ok (st.protectedHdr, st.payload, st.signature)

/-- One pass of the outer loop of `SplitCompact` after a read without a
non-EOF error: append the bytes read and run the inner loop. -/
def SplitCompact.feed (eof : Bool) (st : SplitState) (data : Bytes) : SplitState :=
  let st := { st with sofar := st.sofar ++ data }
  SplitCompact.inner eof (st.sofar.length + 1) st

/-- The outer loop `for { ... }` of `SplitCompact` over the reads of the
reader. -/
def SplitCompact.loop (st : SplitState) : io.Reader → Except error (Bytes × Bytes × Bytes)
  | [] => SplitCompact.finish (SplitCompact.feed true st [])
  | (_, some (.other err)) :: _ => .error err
  | (data, some .EOF) :: _ => SplitCompact.finish (SplitCompact.feed true st data)
  | (data, none) :: rest => SplitCompact.loop (SplitCompact.feed false st data) rest

/-- Function `SplitCompact`: protected header, payload and signature, or the
error. -/
def SplitCompact (rdr : io.Reader) : Except error (Bytes × Bytes × Bytes) :=
  SplitCompact.loop
    { protectedHdr := [], payload := [], signature := [], periods := 0, state := 0, sofar := [] }
    rdr

/-- The interface `sign.Signer`, for keys of type `κ`. -/
structure Signer (κ : Type) where
  Algorithm : String
  Sign : Bytes → κ → Except error Bytes

/-- The interface `verify.Verifier`; `Verify payload signature key` is nil
(`none`) when the signature is accepted. -/
structure Verifier (κ : Type) where
  Verify : Bytes → Bytes → κ → Option error

/-- The interface `PayloadSigner`, for headers of type `η`; a nil header is
`none`. -/
structure PayloadSigner (η : Type) where
  Sign : Bytes → Except error Bytes
  Algorithm : String
  ProtectedHeader : Option η
  PublicHeader : Option η

/-- The struct `payloadSigner`. -/
structure payloadSigner (κ η : Type) where
  signer : Signer κ
  key : κ
  protectedHdr : Option η
  public_ : Option η

/-- The four methods of `*payloadSigner`, which make it a `PayloadSigner`. -/
def payloadSigner.toPayloadSigner {κ η : Type} (s : payloadSigner κ η) : PayloadSigner η where
  Sign := fun payload => s.signer.Sign payload s.key
  Algorithm := s.signer.Algorithm
  ProtectedHeader := s.protectedHdr
  PublicHeader := s.public_

/-- An `Option` value of the package, by its `Name()`: the headers option, the
payload-signer option, or any other. -/
inductive JWSOption (η : Type) where
  | optkeyHeaders (value : η)
  | optkeyPayloadSigner (value : PayloadSigner η)
  | other (name : String)

/-- The struct `encodedSignature`. -/
structure encodedSignature (η : Type) where
  Headers : Option η
  Protected : Bytes
  Signature : Bytes

/-- The struct `encodedMessage`. -/
structure encodedMessage (η : Type) where
  Payload : Bytes
  Signatures : List (encodedSignature η)

/-- The struct `fullMessageProxy`. -/
structure fullMessageProxy (η : Type) where
  Signature : Bytes
  Headers : Bytes
  Protected : Bytes
  Signatures : List (encodedSignature η)
  Payload : Bytes

/-- The interface `jwk.Key`, as far as `VerifyWithJWK` uses it: what `Raw`
materialises and the algorithm name. -/
structure Key (κ : Type) where
  Raw : Except error κ
  Algorithm : String

/-- What the packages outside the tree answer: the signer and verifier
factories, the headers type of the package (`NewHeaders`, `Set`, the header
name `AlgorithmKey`), encoding/json, the slow path of `bytes.TrimSpace` and
`DefaultJWKAcceptor`. -/
structure Env (κ η : Type) where
  signNew : String → Except error (Signer κ)
  verifyNew : String → Except error (Verifier κ)
  AlgorithmKey : String
  NewHeaders : η
  Set : η → String → String → Except error η
  MarshalHeaders : η → Except error Bytes
  MarshalMessage : encodedMessage η → Except error Bytes
  UnmarshalProxy : Bytes → Except error (fullMessageProxy η)
  UnmarshalString : Bytes → Except error Bytes
  UnmarshalHeaders : Bytes → Except error η
  TrimFunc : Bytes → Bytes
  DefaultJWKAcceptor : Key κ → Bool

/-- The loop of `Sign` over its options: the headers of the last headers
option, `NewHeaders()` without one. -/
def Sign.headers {η : Type} (hdrs : η) : List (JWSOption η) → η
  | [] => hdrs
  | .optkeyHeaders value :: rest => Sign.headers value rest
  | _ :: rest => Sign.headers hdrs rest

/-- The statements that `Sign` and `SignLiteral` share, from the encoder of
the headers on: the encoded headers, a period, the encoded payload, then a
period and the encoded signature of what precedes. Writes to the byte buffer
do not fail. -/
def Sign.compact {κ : Type} (signer : Signer κ) (key : κ) (hdrbuf payload : Bytes) :
    Except error Bytes :=
  let buf := base64.Encode hdrbuf
  let buf := buf ++ [period]
  let buf := buf ++ base64.Encode payload
  match signer.Sign buf key with
  | .error err => .error (errors.Wrap err "failed to sign payload")
  | .ok signature =>
    let buf := buf ++ [period]
    let buf := buf ++ base64.Encode signature
    .ok buf

/-- Function `Sign`. -/
def Sign {κ η : Type} (env : Env κ η) (payload : Bytes) (alg : String) (key : κ)
    (options : List (JWSOption η)) : Except error Bytes :=
  let hdrs := Sign.headers env.NewHeaders options
  match env.signNew alg with
  | .error err => .error (errors.Wrap err "failed to create signer")
  | .ok signer =>
    match env.Set hdrs env.AlgorithmKey signer.Algorithm with
    | .error err => .error (errors.Wrap err "failed to set header")
    | .ok hdrs =>
      match env.MarshalHeaders hdrs with
      | .error err => .error (errors.Wrap err "failed to marshal headers")
      | .ok hdrbuf => Sign.compact signer key hdrbuf payload

/-- Function `SignLiteral`. -/
def SignLiteral {κ η : Type} (env : Env κ η) (payload : Bytes) (alg : String) (key : κ)
    (headers : Bytes) : Except error Bytes :=
  match env.signNew alg with
  | .error err => .error (errors.Wrap err "failed to create signer")
  | .ok signer => Sign.compact signer key headers payload

/-- The first loop of `SignMulti`: the payload signers among the options, in
order. -/
def SignMulti.signers {η : Type} : List (JWSOption η) → List (PayloadSigner η)
  | [] => []
  | .optkeyPayloadSigner value :: rest => value :: SignMulti.signers rest
  | _ :: rest => SignMulti.signers rest

/-- The second loop of `SignMulti`: the signature entries of the signers, in
order, or the first error. -/
def SignMulti.sign {κ η : Type} (env : Env κ η) (encodedPayload : Bytes) :
    List (PayloadSigner η) → Except error (List (encodedSignature η))
  | [] => .ok []
  | signer :: rest =>
    let protectedHdr :=
      match signer.ProtectedHeader with
      | some h => h
      | none => env.NewHeaders
    match env.Set protectedHdr env.AlgorithmKey signer.Algorithm with
    | .error err => .error (errors.Wrap err "failed to set header")
    | .ok protectedHdr =>
      match env.MarshalHeaders protectedHdr with
      | .error err => .error (errors.Wrap err "failed to marshal headers")
      | .ok hdrbuf =>
        let encodedHeader := base64.Encode hdrbuf
        let buf := encodedHeader ++ [period] ++ encodedPayload
        match signer.Sign buf with
        | .error err => .error (errors.Wrap err "failed to sign payload")
        | .ok signature =>
          match SignMulti.sign env encodedPayload rest with
          | .error err => .error err
          | .ok entries =>
            .ok ({ Headers := signer.PublicHeader, Protected := encodedHeader,
                   Signature := base64.Encode signature } :: entries)

/-- The message `result` that `SignMulti` builds and hands to
`json.Marshal`. -/
def SignMulti.message {κ η : Type} (env : Env κ η) (payload : Bytes)
    (options : List (JWSOption η)) : Except error (encodedMessage η) :=
  let signers := SignMulti.signers options
  if signers.length = 0 then
    .error (errors.New "no signers provided")
  else
    let encodedPayload := base64.Encode payload
    match SignMulti.sign env encodedPayload signers with
    | .error err => .error err
    | .ok entries => .ok { Payload := encodedPayload, Signatures := entries }

/-- Function `SignMulti`. -/
def SignMulti {κ η : Type} (env : Env κ η) (payload : Bytes) (options : List (JWSOption η)) :
    Except error Bytes :=
  match SignMulti.message env payload options with
  | .error err => .error err
  | .ok result => env.MarshalMessage result

/-- Method `(*fullMessageProxy).encodedSignature`. -/
def fullMessageProxy.encodedSignature {κ η : Type} (env : Env κ η)
    (proxy : fullMessageProxy η) : Except error (encodedSignature η) :=
  match env.UnmarshalString proxy.Protected with
  | .error err => .error (errors.Wrap err "failed to unmarshal 'protected' field")
  | .ok protectedHdr =>
    match env.UnmarshalString proxy.Signature with
    | .error err => .error (errors.Wrap err "failed to unmarshal 'signature' field")
    | .ok signature =>
      match env.UnmarshalHeaders proxy.Headers with
      | .error err => .error (errors.Wrap err "failed to unmarshal 'header' field")
      | .ok _ => .ok { Headers := none, Protected := protectedHdr, Signature := signature }

/-- The loop of `Verify` over the signatures of a message in JSON
serialization. -/
def Verify.signatures {κ η : Type} (verifier : Verifier κ) (key : κ) (payload : Bytes) :
    List (encodedSignature η) → Except error Bytes
  | [] => .error (errors.New "could not verify with any of the signatures")
  | sig :: rest =>
    let buf := sig.Protected ++ [period] ++ payload
    match base64.DecodeString sig.Signature with
    | .error _ => Verify.signatures verifier key payload rest
    | .ok decodedSignature =>
      match verifier.Verify buf decodedSignature key with
      | none =>
        match base64.DecodeString payload with
        | .error err => .error (errors.Wrap err "message verified, failed to decode payload")
        | .ok decodedPayload => .ok decodedPayload
      | some _ => Verify.signatures verifier key payload rest

/-- The branch of `Verify` for a buffer that begins with an opening brace. -/
def Verify.json {κ η : Type} (env : Env κ η) (verifier : Verifier κ) (key : κ) (buf : Bytes) :
    Except error Bytes :=
  match env.UnmarshalProxy buf with
  | .error err => .error (errors.Wrap err "failed to unmarshal JWS message")
  | .ok proxy =>
    if proxy.Payload.length = 0 then
      .error (errors.New "invalid JWS message format (missing payload)")
    else if proxy.Signature.length > 0 then
      if proxy.Signatures.length > 0 then
        .error (errors.New "invalid JWS message format (signature and signatures both exist)")
      else
        match proxy.encodedSignature env with
        | .error err => .error err
        | .ok encodedSig =>
          Verify.signatures verifier key proxy.Payload (proxy.Signatures ++ [encodedSig])
    else
      Verify.signatures verifier key proxy.Payload proxy.Signatures

/-- The branch of `Verify` for compact serialization. The reader over the
buffer is read with the 4096-byte buffer of `SplitCompact`. -/
def Verify.compact {κ : Type} (verifier : Verifier κ) (key : κ) (buf : Bytes) :
    Except error Bytes :=
  match SplitCompact (bytes.NewReader 4096 buf) with
  | .error err => .error (errors.Wrap err "failed extract from compact serialization format")
  | .ok (protectedHdr, payload, signature) =>
    let verifyBuf := protectedHdr ++ [period] ++ payload
    match base64.DecodeToBuffer signature with
    | .error err => .error (errors.Wrap err "failed to decode signature")
    | .ok decodedSignature =>
      match verifier.Verify verifyBuf decodedSignature key with
      | some err => .error (errors.Wrap err "failed to verify message")
      | none =>
        match base64.DecodeToBuffer payload with
        | .error err => .error (errors.Wrap err "message verified, failed to decode payload")
        | .ok decodedPayload => .ok decodedPayload

/-- Function `Verify`. -/
def Verify {κ η : Type} (env : Env κ η) (buf : Bytes) (alg : String) (key : κ) :
    Except error Bytes :=
  match env.verifyNew alg with
  | .error err => .error (errors.Wrap err "failed to create verifier")
  | .ok verifier =>
    let buf := bytes.TrimSpace env.TrimFunc buf
    if buf.length = 0 then
      .error (errors.New "attempt to verify empty buffer")
    else if buf.head? = some 123 then
      Verify.json env verifier key buf
    else
      Verify.compact verifier key buf

/-- Function `VerifyWithJWK`. -/
def VerifyWithJWK {κ η : Type} (env : Env κ η) (buf : Bytes) (key : Key κ) :
    Except error Bytes :=
  match key.Raw with
  | .error err => .error (errors.Wrap err "failed to materialize jwk.Key")
  | .ok rawkey =>
    match Verify env buf key.Algorithm rawkey with
    | .error err => .error (errors.Wrap err "failed to verify message")
    | .ok payload => .ok payload

/-- The loop of `VerifyWithJWKSet` over the keys: the result, and the keys
that were handed to `VerifyWithJWK`, in order. -/
def VerifyWithJWKSet.loop {κ η : Type} (env : Env κ η) (buf : Bytes)
    (keyaccept : Key κ → Bool) : List (Key κ) → Except error Bytes × List (Key κ)
  | [] => (.error (errors.New "failed to verify with any of the keys"), [])
  | key :: rest =>
    if !keyaccept key then
      VerifyWithJWKSet.loop env buf keyaccept rest
    else
      match VerifyWithJWK env buf key with
      | .ok payload => (.ok payload, [key])
      | .error _ =>
        let (result, tried) := VerifyWithJWKSet.loop env buf keyaccept rest
        (result, key :: tried)

/-- Function `VerifyWithJWKSet`, on the keys of the set; a nil `keyaccept` is
`none`. Returns the result and the keys verification was attempted with. -/
def VerifyWithJWKSet {κ η : Type} (env : Env κ η) (buf : Bytes) (keyset : List (Key κ))
    (keyaccept : Option (Key κ → Bool)) : Except error Bytes × List (Key κ) :=
  let keyaccept :=
    match keyaccept with
    | some f => f
    | none => env.DefaultJWKAcceptor
  VerifyWithJWKSet.loop env buf keyaccept keyset

end jws

namespace jws

/-- The bytes of a string of ASCII characters. -/
def ofString (s : String) : Bytes := s.toList.map (fun c => Fin.ofNat c.toNat)

/-- A sample signer for byte-string keys: the "signature" of a message is the
key followed by the length of the message and its first two bytes. -/
def sampleSigner (alg : String) : Signer Bytes where
  Algorithm := alg
  Sign := fun msg key => .ok (key ++ Fin.ofNat msg.length :: msg.take 2)

/-- The verifier that goes with `sampleSigner`. -/
def sampleVerifier : Verifier Bytes where
  Verify := fun msg sig key =>
    if sig = key ++ Fin.ofNat msg.length :: msg.take 2 then none
    else some (errors.New "signature mismatch")

/-- A sample environment: byte-string keys, headers kept as the bytes they
marshal to, every algorithm but "none" supported. -/
def sampleEnv : Env Bytes Bytes where
  signNew := fun alg =>
    if alg = "none" then .error (errors.New "unsupported algorithm")
    else .ok (sampleSigner alg)
  verifyNew := fun alg =>
    if alg = "none" then .error (errors.New "unsupported algorithm")
    else .ok sampleVerifier
  AlgorithmKey := "alg"
  NewHeaders := []
  Set := fun hdrs key value => .ok (hdrs ++ ofString (key ++ "=" ++ value ++ ";"))
  MarshalHeaders := fun hdrs => .ok hdrs
  MarshalMessage := fun m => .ok m.Payload
  UnmarshalProxy := fun _ => .error (errors.New "not a JSON message")
  UnmarshalString := fun raw => .ok raw
  UnmarshalHeaders := fun raw => .ok raw
  TrimFunc := fun b => b
  DefaultJWKAcceptor := fun _ => true

end jws

namespace strconv

/-- Function `strconv.Itoa`: the decimal digits of the number, after a minus
sign when it is negative. -/
def Itoa (i : Int) : String :=
  if i < 0 then "-" ++ Nat.repr (-i).toNat else Nat.repr i.toNat

end strconv

namespace huawei

/-- The struct `Locales` of region.go. -/
structure Locales where
  EnUs : String
  ZhCN : String
deriving DecidableEq, Repr

/-- The struct `SRegion` of region.go, by its data fields (`Type_` is the field
`Type`); the clients and the cached zones, vpcs and storage cache are left
out. -/
structure SRegion where
  Description : String
  ID : String
  Locales : Locales
  ParentRegionID : String
  Type_ : String
deriving DecidableEq, Repr

/-- The struct `SEipAddress`, declared outside the tree, by the two fields
region.go uses: the region pointer (nil is `none`) and the id. -/
structure SEipAddress where
  region : Option SRegion
  ID : String
deriving DecidableEq, Repr

/-- A Go `map[string]string`, by its entries. -/
abbrev Querys := List (String × String)

/-- The assignment `querys[key] = value`: an existing key gets the new value,
a new key is added. -/
def Querys.set (key value : String) : Querys → Querys
  | [] => [(key, value)]
  | (k, v) :: rest =>
    if k = key then (key, value) :: rest else (k, v) :: Querys.set key value rest

/-- The lookup `querys[key]` with its presence flag. -/
def Querys.get (key : String) : Querys → Option String
  | [] => none
  | (k, v) :: rest => if k = key then some v else Querys.get key rest

/-- What `GetEips` returns, together with the query it handed to `DoList`. -/
structure GetEipsResult where
  eips : List SEipAddress
  count : Nat
  err : Option error
  querys : Querys

/-- Method `(*SRegion).GetEips`. `DoList` is the helper of the package,
outside the tree, called on `self.ecsClient.Eips.List`: for a query it answers
with what it stored in `eips` and with its error. -/
def SRegion.GetEips (DoList : Querys → List SEipAddress × Option error) (self : SRegion)
    (marker : String) (limit : Int) : GetEipsResult :=
  let querys : Querys := [("limit", "50")]
  let querys := if marker.utf8ByteSize > 0 then querys.set "marker" marker else querys
  let querys := querys.set "limit" (strconv.Itoa limit)
  let (eips, err) := DoList querys
  let eips := eips.map (fun eip => { eip with region := some self })
  { eips := eips, count := eips.length, err := err, querys := querys }

/-- A sample region. -/
def sampleRegion : SRegion where
  Description := "CN North-Beijing4"
  ID := "cn-north-4"
  Locales := { EnUs := "CN North-Beijing4", ZhCN := "cn-north-4" }
  ParentRegionID := ""
  Type_ := "public"

end huawei

namespace jws

/-- The result of `SplitCompact` when the whole input arrives in one read and
the next read reports the end. -/
def SplitCompact.whole (input : Bytes) : Except error (Bytes × Bytes × Bytes) :=
  SplitCompact [(input, none)]

end jws

namespace jws

/-- The payload signer an option supplies: the `o.Value().(PayloadSigner)` of
an option named `optkeyPayloadSigner`, as the loop of `SignMulti` takes it, and
none for an option of any other name. -/
def JWSOption.asPayloadSigner {η : Type} : JWSOption η → Option (PayloadSigner η)
  | .optkeyPayloadSigner value => some value
  | _ => none

/-- A sample payload signer: a `payloadSigner` struct around `sampleSigner`. -/
def samplePayloadSigner (alg : String) (key : Bytes) (protectedHdr public_ : Option Bytes) :
    PayloadSigner Bytes :=
  payloadSigner.toPayloadSigner
    { signer := sampleSigner alg, key := key, protectedHdr := protectedHdr,
      public_ := public_ }

/-- Sample options for `SignMulti`: two payload signers with another option
between them. -/
def sampleSignMultiOptions : List (JWSOption Bytes) :=
  [JWSOption.optkeyPayloadSigner
      (samplePayloadSigner "HS256" [1, 2] (some (ofString "kid=1;")) none),
    JWSOption.other "x",
    JWSOption.optkeyPayloadSigner
      (samplePayloadSigner "ES256" [3] none (some (ofString "pub=2;")))]

end jws

/-! ## Theorems -/

namespace taskman

open jsonutils jsonutils.JSONObject

theorem utf8ByteSize_go_pos (c : Char) (cs : List Char) :
    0 < String.utf8ByteSize.go (c :: cs) := by
  simp only [String.utf8ByteSize.go]
  have := Char.utf8Size_pos c
  omega

theorem utf8ByteSize_eq_zero_iff (s : String) : s.utf8ByteSize = 0 ↔ s = "" := by
  constructor
  · intro h
    cases s with
    | mk cs =>
      cases cs with
      | nil => rfl
      | cons c cs =>
        have := utf8ByteSize_go_pos c cs
        simp only [String.utf8ByteSize] at h
        omega
  · intro h
    subst h
    rfl

end taskman

namespace taskman

open jsonutils jsonutils.JSONObject

/-- C1: when the task-type name of the task id is non-empty, `runTask` returns
a non-nil error if `Run` of the selected pool (the table entry of the name, the
shared pool without one) answers false for the unit, and returns nil if it
answers true. -/
theorem runTask_error_of_rejected (api : NotifyApi) (g : Globals)
    (getTaskName : String → String) (Run : SWorkerManager → taskTask → Bool)
    (taskId : String) (data : JSONObject) (hname : getTaskName taskId ≠ "") :
    (Run ((g.taskWorkerTable (getTaskName taskId)).getD g.taskWorkMan) ⟨taskId, data⟩ = false →
      (runTask api g getTaskName Run taskId data).1 ≠ none) ∧
    (Run ((g.taskWorkerTable (getTaskName taskId)).getD g.taskWorkMan) ⟨taskId, data⟩ = true →
      (runTask api g getTaskName Run taskId data).1 = none) := by
  have hsize : ¬ (getTaskName taskId).utf8ByteSize = 0 := fun h =>
    hname ((utf8ByteSize_eq_zero_iff _).1 h)
  constructor
  · intro hrun
    cases htab : g.taskWorkerTable (getTaskName taskId) <;>
      simp_all [runTask, Option.getD]
  · intro hrun
    cases htab : g.taskWorkerTable (getTaskName taskId) <;>
      simp_all [runTask, Option.getD]

/-- C1, at a full shared pool: the task "t1" of type "GuestStartTask" is
rejected and `runTask` returns the "may be droped" error. -/
theorem runTask_error_of_rejected_witness :
    (runTask ⟨"panic", "task"⟩ init (fun _ => "GuestStartTask") (fun _ _ => false)
      "t1" JSONNull).1 ≠ none :=
  (runTask_error_of_rejected ⟨"panic", "task"⟩ init (fun _ => "GuestStartTask")
    (fun _ _ => false) "t1" JSONNull (by decide)).1 rfl

/-- C2: for a task with a non-empty task-type name `runTask` calls `Run` once,
on the pool that `taskWorkerTable` holds under that name, or on `taskWorkMan`
when the table has no such entry; the unit carries the task id and the data it
was given. -/
theorem runTask_routes_to_one_pool (api : NotifyApi) (g : Globals)
    (getTaskName : String → String) (Run : SWorkerManager → taskTask → Bool)
    (taskId : String) (data : JSONObject) (hname : getTaskName taskId ≠ "") :
    ∃ call : Submission,
      (runTask api g getTaskName Run taskId data).2 = [call] ∧
      (∀ workerMan, g.taskWorkerTable (getTaskName taskId) = some workerMan →
        call.worker = workerMan) ∧
      (g.taskWorkerTable (getTaskName taskId) = none → call.worker = g.taskWorkMan) ∧
      call.task.taskId = taskId ∧ call.task.data = data := by
  have hsize : ¬ (getTaskName taskId).utf8ByteSize = 0 := fun h =>
    hname ((utf8ByteSize_eq_zero_iff _).1 h)
  cases htab : g.taskWorkerTable (getTaskName taskId) with
  | none =>
    cases hrun : Run g.taskWorkMan ⟨taskId, data⟩ <;>
      simp [runTask, hsize, htab, hrun]
  | some w =>
    cases hrun : Run w ⟨taskId, data⟩ <;>
      simp [runTask, hsize, htab, hrun]

/-- C2, with a dedicated pool "slow" registered for "DiskBackupTask": the one
call of `Run` goes to that pool. -/
theorem runTask_routes_to_one_pool_witness :
    ∃ call : Submission,
      (runTask ⟨"panic", "task"⟩
        ⟨init.taskWorkMan, fun n =>
          if n = "DiskBackupTask" then some (NewWorkerManager "slow" 1 8 true) else none⟩
        (fun _ => "DiskBackupTask") (fun _ _ => true) "t2" (JSONString "x")).2 = [call] ∧
      call.worker = NewWorkerManager "slow" 1 8 true ∧ call.task.taskId = "t2" := by
  obtain ⟨call, h1, h2, _, h4, _⟩ := runTask_routes_to_one_pool ⟨"panic", "task"⟩
    ⟨init.taskWorkMan, fun n =>
      if n = "DiskBackupTask" then some (NewWorkerManager "slow" 1 8 true) else none⟩
    (fun _ => "DiskBackupTask") (fun _ _ => true) "t2" (JSONString "x") (by decide)
  exact ⟨call, h1, h2 _ (by simp), h4⟩

/-- C3: when the task-name lookup gives the empty string, `runTask` returns a
non-nil error and makes no call of `Run` on any pool. -/
theorem runTask_unknown_task (api : NotifyApi) (g : Globals)
    (getTaskName : String → String) (Run : SWorkerManager → taskTask → Bool)
    (taskId : String) (data : JSONObject) (hname : getTaskName taskId = "") :
    (runTask api g getTaskName Run taskId data).1 ≠ none ∧
    (runTask api g getTaskName Run taskId data).2 = [] := by
  have hsize : (getTaskName taskId).utf8ByteSize = 0 := (utf8ByteSize_eq_zero_iff _).2 hname
  simp [runTask, hsize]

/-- C3, for a task id without a task record. -/
theorem runTask_unknown_task_witness :
    (runTask ⟨"panic", "task"⟩ init (fun _ => "") (fun _ _ => true) "gone" JSONNull).1 ≠ none ∧
    (runTask ⟨"panic", "task"⟩ init (fun _ => "") (fun _ _ => true) "gone" JSONNull).2 = [] :=
  runTask_unknown_task ⟨"panic", "task"⟩ init (fun _ => "") (fun _ _ => true) "gone" JSONNull rfl

/-- C4: the panic callback of the one `Run` call of `runTask`, run on any
error with any stack text, makes exactly one notification call, a
`SystemExceptionNotify` on `TOPIC_RESOURCE_TASK`, whose payload is the
dictionary of the four fields task_name, task_id, stack and error. -/
theorem runTask_onPanic_notifies_once (api : NotifyApi) (g : Globals)
    (getTaskName : String → String) (Run : SWorkerManager → taskTask → Bool)
    (taskId : String) (data : JSONObject) (hname : getTaskName taskId ≠ "") :
    ∃ call : Submission,
      (runTask api g getTaskName Run taskId data).2 = [call] ∧
      ∀ (stack : String) (err : error),
        call.onPanic stack err =
          [NotifyCall.SystemExceptionNotify api.ActionSystemPanic api.TOPIC_RESOURCE_TASK
            (JSONDict [("task_name", JSONString (getTaskName taskId)),
              ("task_id", JSONString taskId),
              ("stack", JSONString stack),
              ("error", JSONString err.Error)])] := by
  have hsize : ¬ (getTaskName taskId).utf8ByteSize = 0 := fun h =>
    hname ((utf8ByteSize_eq_zero_iff _).1 h)
  have hcb : ∀ (stack : String) (err : error),
      runTask.onPanic api (getTaskName taskId) taskId stack err =
        [NotifyCall.SystemExceptionNotify api.ActionSystemPanic api.TOPIC_RESOURCE_TASK
          (JSONDict [("task_name", JSONString (getTaskName taskId)),
            ("task_id", JSONString taskId),
            ("stack", JSONString stack),
            ("error", JSONString err.Error)])] := by
    intro stack err
    simp [runTask.onPanic, NewDict, NewString, jsonutils.Add, setField]
  cases htab : g.taskWorkerTable (getTaskName taskId) with
  | none =>
    cases hrun : Run g.taskWorkMan ⟨taskId, data⟩ <;>
      simp [runTask, hsize, htab, hrun, hcb]
  | some w =>
    cases hrun : Run w ⟨taskId, data⟩ <;>
      simp [runTask, hsize, htab, hrun, hcb]

/-- C4, for a panic "boom" in task "t1": one notification with the four
fields. -/
theorem runTask_onPanic_notifies_once_witness :
    ∃ call : Submission,
      (runTask ⟨"panic", "task"⟩ init (fun _ => "GuestStartTask") (fun _ _ => true)
        "t1" JSONNull).2 = [call] ∧
      call.onPanic "goroutine 1" ⟨"boom"⟩ =
        [NotifyCall.SystemExceptionNotify "panic" "task"
          (JSONDict [("task_name", JSONString "GuestStartTask"), ("task_id", JSONString "t1"),
            ("stack", JSONString "goroutine 1"), ("error", JSONString "boom")])] := by
  obtain ⟨call, h1, h2⟩ := runTask_onPanic_notifies_once ⟨"panic", "task"⟩ init
    (fun _ => "GuestStartTask") (fun _ _ => true) "t1" JSONNull (by decide)
  exact ⟨call, h1, h2 _ _⟩

end taskman

namespace image.tasks

open jsonutils jsonutils.JSONObject

/-- C5: on every path of `ImageCopyFromUrlTask.OnInit` the calls of
`SetStageComplete` and `SetStageFailed` number one in all, and the one call is
`SetStageFailed` exactly when the URL request returned an error or the request
succeeded and saving its stream returned an error. -/
theorem OnInit_one_terminal_call (env : Env) (self : STask) :
    (ImageCopyFromUrlTask.OnInit env self).countP Effect.isSetStageComplete +
      (ImageCopyFromUrlTask.OnInit env self).countP Effect.isSetStageFailed = 1 ∧
    ((ImageCopyFromUrlTask.OnInit env self).countP Effect.isSetStageFailed = 1 ↔
      (∃ err, env.Request ((env.GetString self.Params "copy_from").getD "") = .error err) ∨
      (∃ body err, env.Request ((env.GetString self.Params "copy_from").getD "") = .ok body ∧
        env.SaveImageFromStream body = some err)) := by
  cases hreq : env.Request ((env.GetString self.Params "copy_from").getD "") with
  | error err =>
    simp [ImageCopyFromUrlTask.OnInit, hreq, List.countP_cons, Effect.isSetStageComplete,
      Effect.isSetStageFailed]
  | ok body =>
    cases hsave : env.SaveImageFromStream body with
    | some err =>
      simp [ImageCopyFromUrlTask.OnInit, hreq, hsave, List.countP_cons,
        Effect.isSetStageComplete, Effect.isSetStageFailed]
    | none =>
      simp [ImageCopyFromUrlTask.OnInit, hreq, hsave, List.countP_cons,
        Effect.isSetStageComplete, Effect.isSetStageFailed]

end image.tasks

namespace compute.tasks

open jsonutils jsonutils.JSONObject

theorem applyTaskFail_filter_isControl (env : Env) (self : STask) (disk : SDisk)
    (spd : Option SSnapshotPolicyDisk) (reason : JSONObject) :
    (SnapshotPolicyApplyTask.taskFail env self disk spd reason).filter Effect.isControl =
      [Effect.SetStageFailed reason] := by
  cases spd with
  | none =>
    simp [SnapshotPolicyApplyTask.taskFail, List.filter_cons, Effect.isControl,
      Effect.isSetStage, Effect.isSetStageComplete, Effect.isSetStageFailed]
  | some s =>
    cases hdet : env.RealDetach s <;>
    cases hsp : env.FetchSnapshotPolicyById s.SnapshotpolicyId <;>
      simp [SnapshotPolicyApplyTask.taskFail, hdet, hsp, List.filter_cons, Effect.isControl,
        Effect.isSetStage, Effect.isSetStageComplete, Effect.isSetStageFailed]

theorem applyTaskFail_any_requestRejected (env : Env) (self : STask) (disk : SDisk)
    (spd : Option SSnapshotPolicyDisk) (reason : JSONObject) :
    (SnapshotPolicyApplyTask.taskFail env self disk spd reason).any
      (Effect.requestRejected env) = false := by
  cases spd with
  | none => simp [SnapshotPolicyApplyTask.taskFail, Effect.requestRejected]
  | some s =>
    cases hdet : env.RealDetach s <;>
    cases hsp : env.FetchSnapshotPolicyById s.SnapshotpolicyId <;>
      simp [SnapshotPolicyApplyTask.taskFail, hdet, hsp, Effect.requestRejected]

theorem cancelTaskFail_filter_isControl (env : Env) (self : STask) (disk : SDisk)
    (spd : Option SSnapshotPolicyDisk) (reason : JSONObject) :
    (SnapshotPolicyCancelTask.taskFail env self disk spd reason).filter Effect.isControl =
      [Effect.SetStageFailed reason] := by
  cases spd with
  | none =>
    simp [SnapshotPolicyCancelTask.taskFail, List.filter_cons, Effect.isControl,
      Effect.isSetStage, Effect.isSetStageComplete, Effect.isSetStageFailed]
  | some s =>
    cases hsp : env.FetchSnapshotPolicyById s.SnapshotpolicyId <;>
      simp [SnapshotPolicyCancelTask.taskFail, hsp, List.filter_cons, Effect.isControl,
        Effect.isSetStage, Effect.isSetStageComplete, Effect.isSetStageFailed]

theorem cancelTaskFail_any_requestRejected (env : Env) (self : STask) (disk : SDisk)
    (spd : Option SSnapshotPolicyDisk) (reason : JSONObject) :
    (SnapshotPolicyCancelTask.taskFail env self disk spd reason).any
      (Effect.requestRejected env) = false := by
  cases spd with
  | none => simp [SnapshotPolicyCancelTask.taskFail, Effect.requestRejected]
  | some s =>
    cases hsp : env.FetchSnapshotPolicyById s.SnapshotpolicyId <;>
      simp [SnapshotPolicyCancelTask.taskFail, hsp, Effect.requestRejected]

end compute.tasks

namespace compute.tasks

open jsonutils jsonutils.JSONObject

theorem applyOnInit_request_control (env : Env) (self : STask) (disk : SDisk)
    (data : JSONObject) (spd : SSnapshotPolicyDisk) (sp : Option SSnapshotPolicy) :
    oneControlCallUnlessRejected env "OnPreSnapshotPolicyApplyComplete"
      (SnapshotPolicyApplyTask.OnInit.request env self disk data spd sp).2 := by
  cases hreq : env.RequestPreSnapshotPolicyApply disk sp data with
  | none =>
    simp [oneControlCallUnlessRejected, SnapshotPolicyApplyTask.OnInit.request, hreq,
      Effect.requestRejected, List.countP_cons, Effect.isControl, Effect.isSetStage,
      Effect.isSetStageComplete, Effect.isSetStageFailed]
  | some err =>
    simp [oneControlCallUnlessRejected, SnapshotPolicyApplyTask.OnInit.request, hreq,
      Effect.requestRejected, List.filter_cons, applyTaskFail_filter_isControl,
      Effect.isControl, Effect.isSetStage, Effect.isSetStageComplete, Effect.isSetStageFailed]

theorem applyOnPre_request_control (env : Env) (self : STask) (disk : SDisk)
    (data : JSONObject) (spd : SSnapshotPolicyDisk) (sp : SSnapshotPolicy) :
    oneControlCallUnlessRejected env "OnSnapshotPolicyApply"
      (SnapshotPolicyApplyTask.OnPreSnapshotPolicyApplyComplete.request env self disk data
        spd sp) := by
  cases hreq : env.RequestApplySnapshotPolicy disk sp data with
  | none =>
    simp [oneControlCallUnlessRejected,
      SnapshotPolicyApplyTask.OnPreSnapshotPolicyApplyComplete.request, hreq,
      Effect.requestRejected, List.countP_cons, Effect.isControl, Effect.isSetStage,
      Effect.isSetStageComplete, Effect.isSetStageFailed]
  | some err =>
    simp [oneControlCallUnlessRejected,
      SnapshotPolicyApplyTask.OnPreSnapshotPolicyApplyComplete.request, hreq,
      Effect.requestRejected, List.filter_cons, applyTaskFail_filter_isControl,
      Effect.isControl, Effect.isSetStage, Effect.isSetStageComplete, Effect.isSetStageFailed]

theorem oneControlCall_of_taskFail (env : Env) (stageName : String) (calls : List Effect)
    (reason : JSONObject) (hany : calls.any (Effect.requestRejected env) = false)
    (hfilter : calls.filter Effect.isControl = [Effect.SetStageFailed reason]) :
    oneControlCallUnlessRejected env stageName calls := by
  refine ⟨fun _ => ?_, fun h => ?_⟩
  · rw [List.countP_eq_length_filter, hfilter]
    rfl
  · rw [hany] at h
    cases h

theorem oneControlCall_cons (env : Env) (stageName : String) (e : Effect)
    (calls : List Effect) (hreq : Effect.requestRejected env e = false)
    (hctl : e.isControl = false)
    (h : oneControlCallUnlessRejected env stageName calls) :
    oneControlCallUnlessRejected env stageName (e :: calls) := by
  unfold oneControlCallUnlessRejected at *
  simpa [List.any_cons, hreq, List.countP_cons, List.filter_cons, hctl] using h

/-- C6, as stated, fails: when the region driver answers the request of
`SnapshotPolicyApplyTask.OnInit` with an error, the handler has already called
`SetStage` and then calls `SetStageFailed` through `taskFail`, two control
calls in one invocation. -/
theorem applyOnInit_two_control_calls :
    (SnapshotPolicyApplyTask.OnInit (sampleEnv false) sampleTask sampleDisk
        sampleData).2.filter Effect.isControl =
      [Effect.SetStage "OnPreSnapshotPolicyApplyComplete" none,
        Effect.SetStageFailed (JSONString "driver timeout")] ∧
    (SnapshotPolicyApplyTask.OnInit (sampleEnv false) sampleTask sampleDisk
        sampleData).2.countP Effect.isControl ≠ 1 := by
  constructor
  · rfl
  · decide

/-- C6, amended: each of `SnapshotPolicyApplyTask.OnInit`,
`OnPreSnapshotPolicyApplyComplete` and `SnapshotPolicyCancelTask.OnInit` makes
exactly one control call unless the region driver rejects the request the
handler sends after `SetStage`; in that case the control calls are that
`SetStage` followed by one `SetStageFailed`. -/
theorem handlers_one_control_call_unless_rejected (env : Env) (self : STask) (disk : SDisk)
    (data : JSONObject) :
    oneControlCallUnlessRejected env "OnPreSnapshotPolicyApplyComplete"
      (SnapshotPolicyApplyTask.OnInit env self disk data).2 ∧
    oneControlCallUnlessRejected env "OnSnapshotPolicyApply"
      (SnapshotPolicyApplyTask.OnPreSnapshotPolicyApplyComplete env self disk data) ∧
    oneControlCallUnlessRejected env "OnSnapshotPolicyCancel"
      (SnapshotPolicyCancelTask.OnInit env self disk data).2 := by
  refine ⟨?_, ?_, ?_⟩
  · unfold SnapshotPolicyApplyTask.OnInit
    cases hc : Contains data "need_detach" with
    | false => simpa using applyOnInit_request_control env self disk data _ none
    | true =>
      cases hf : env.FetchById ((env.GetString data "need_detach").getD "") with
      | error err =>
        simpa [hf] using oneControlCall_of_taskFail env _ _ _
          (applyTaskFail_any_requestRejected env self disk _ _)
          (applyTaskFail_filter_isControl env self disk _ (NewString err.Error))
      | ok model =>
        simpa [hf] using applyOnInit_request_control env self disk data _ (some model)
  · unfold SnapshotPolicyApplyTask.OnPreSnapshotPolicyApplyComplete
    cases hc : Contains data "need_detach" with
    | false => simpa using applyOnPre_request_control env self disk data _ _
    | true =>
      rcases hf : env.FetchBySnapshotPolicyDisk ((env.GetString data "need_detach").getD "")
        disk.Id with ⟨spd1, err⟩
      cases err with
      | some err =>
        simpa [hf] using oneControlCall_of_taskFail env _ _ _
          (applyTaskFail_any_requestRejected env self disk _ _)
          (applyTaskFail_filter_isControl env self disk _ (NewString err.Error))
      | none =>
        cases spd1 with
        | none => simpa [hf] using applyOnPre_request_control env self disk data _ _
        | some spd1 =>
          simpa [hf] using oneControlCall_cons env _ (Effect.RealDetach spd1 self.UserCred) _
            rfl rfl (applyOnPre_request_control env self disk data _ _)
  · unfold SnapshotPolicyCancelTask.OnInit
    cases hf : env.FetchById ((env.GetString data "snapshot_policy_id").getD "") with
    | error err =>
      simpa [hf] using oneControlCall_of_taskFail env _ _ _
        (cancelTaskFail_any_requestRejected env _ disk _ _)
        (cancelTaskFail_filter_isControl env _ disk _ _)
    | ok sp =>
      cases hreq : env.RequestCancelSnapshotPolicy disk sp data with
      | none =>
        simp [oneControlCallUnlessRejected, hf, hreq,
          Effect.requestRejected, List.countP_cons, Effect.isControl, Effect.isSetStage,
          Effect.isSetStageComplete, Effect.isSetStageFailed]
      | some err =>
        simp [oneControlCallUnlessRejected, hf, hreq,
          Effect.requestRejected, List.filter_cons, cancelTaskFail_filter_isControl,
          Effect.isControl, Effect.isSetStage, Effect.isSetStageComplete,
          Effect.isSetStageFailed]

end compute.tasks

namespace compute.tasks

open jsonutils jsonutils.JSONObject

theorem applyTaskFail_filter_isSetStageFailed (env : Env) (self : STask) (disk : SDisk)
    (spd : Option SSnapshotPolicyDisk) (reason : JSONObject) :
    (SnapshotPolicyApplyTask.taskFail env self disk spd reason).filter
      Effect.isSetStageFailed = [Effect.SetStageFailed reason] := by
  cases spd with
  | none =>
    simp [SnapshotPolicyApplyTask.taskFail, List.filter_cons, Effect.isSetStageFailed]
  | some s =>
    cases hdet : env.RealDetach s <;>
    cases hsp : env.FetchSnapshotPolicyById s.SnapshotpolicyId <;>
      simp [SnapshotPolicyApplyTask.taskFail, hdet, hsp, List.filter_cons,
        Effect.isSetStageFailed]

theorem cancelTaskFail_filter_isSetStageFailed (env : Env) (self : STask) (disk : SDisk)
    (spd : Option SSnapshotPolicyDisk) (reason : JSONObject) :
    (SnapshotPolicyCancelTask.taskFail env self disk spd reason).filter
      Effect.isSetStageFailed = [Effect.SetStageFailed reason] := by
  cases spd with
  | none =>
    simp [SnapshotPolicyCancelTask.taskFail, List.filter_cons, Effect.isSetStageFailed]
  | some s =>
    cases hsp : env.FetchSnapshotPolicyById s.SnapshotpolicyId <;>
      simp [SnapshotPolicyCancelTask.taskFail, hsp, List.filter_cons,
        Effect.isSetStageFailed]

/-- C7: for every reason, each of the three Failed continuations
(`OnPreSnapshotPolicyApplyCompleteFailed`, `OnSnapshotPolicyApplyFailed`,
`OnSnapshotPolicyCancelFailed`) calls `SetStageFailed` exactly once, with that
reason, whatever the lookup of the binding returns. -/
theorem failed_continuations_fail_once_with_reason (env : Env) (self : STask) (disk : SDisk)
    (reason : JSONObject) :
    (SnapshotPolicyApplyTask.OnPreSnapshotPolicyApplyCompleteFailed env self disk
      reason).filter Effect.isSetStageFailed = [Effect.SetStageFailed reason] ∧
    (SnapshotPolicyApplyTask.OnSnapshotPolicyApplyFailed env self disk reason).filter
      Effect.isSetStageFailed = [Effect.SetStageFailed reason] ∧
    (SnapshotPolicyCancelTask.OnSnapshotPolicyCancelFailed env self disk reason).filter
      Effect.isSetStageFailed = [Effect.SetStageFailed reason] := by
  refine ⟨?_, ?_, ?_⟩
  · unfold SnapshotPolicyApplyTask.OnPreSnapshotPolicyApplyCompleteFailed
    rcases hf : env.FetchBySnapshotPolicyDisk ((env.GetString self.Params
      "snapshotpolicy_id").getD "") disk.Id with ⟨spd, err⟩
    cases err <;> simp [hf, applyTaskFail_filter_isSetStageFailed]
  · unfold SnapshotPolicyApplyTask.OnSnapshotPolicyApplyFailed
    rcases hf : env.FetchBySnapshotPolicyDisk ((env.GetString self.Params
      "snapshotpolicy_id").getD "") disk.Id with ⟨spd, err⟩
    cases err <;> simp [hf, applyTaskFail_filter_isSetStageFailed]
  · unfold SnapshotPolicyCancelTask.OnSnapshotPolicyCancelFailed
    rcases hf : env.FetchBySnapshotPolicyDisk ((env.GetString self.Params
      "snapshotpolicy_id").getD "") disk.Id with ⟨spd, err⟩
    cases err <;> simp [hf, cancelTaskFail_filter_isSetStageFailed]

/-- C8: every call of `SnapshotPolicyApplyTask.taskFail` ends with these five
calls, in this order: the disk's status set to `DISK_APPLY_SNAPSHOT_FAIL` with
the reason's text, the failure event for the disk, the failed action log for
the disk, the notification, and `SetStageFailed` with the reason. Nothing
before them is a `SetStageFailed`, and with a non-nil `spd` the very first call
is the `RealDetach` of that binding. -/
theorem applyTaskFail_order (env : Env) (self : STask) (disk : SDisk)
    (spd : Option SSnapshotPolicyDisk) (reason : JSONObject) :
    ∃ before : List Effect,
      SnapshotPolicyApplyTask.taskFail env self disk spd reason =
        before ++
          [Effect.SetStatus (.disk disk) self.UserCred env.consts.DISK_APPLY_SNAPSHOT_FAIL
              (env.stringOf reason),
            Effect.LogEvent (.disk disk) env.consts.db_ACT_APPLY_SNAPSHOT_POLICY_FAILED
              (.json reason) self.UserCred,
            Effect.AddActionLogWithStartable (.disk disk)
              env.consts.logclient_ACT_APPLY_SNAPSHOT_POLICY (.json reason) self.UserCred
              false,
            Effect.NotifySystemErrorWithCtx disk.Id disk.Name
              env.consts.DISK_APPLY_SNAPSHOT_FAIL (env.stringOf reason),
            Effect.SetStageFailed reason] ∧
      before.countP Effect.isSetStageFailed = 0 ∧
      (spd = none → before = []) ∧
      (∀ s, spd = some s → before.head? = some (Effect.RealDetach s self.UserCred)) := by
  cases spd with
  | none =>
    exact ⟨[], by simp [SnapshotPolicyApplyTask.taskFail], rfl, fun _ => rfl,
      fun s h => by cases h⟩
  | some s =>
    refine ⟨[Effect.RealDetach s self.UserCred] ++
        (match env.RealDetach s with
          | some _ =>
            [Effect.Errorf ("Delete snapshotpolicydisk " ++ s.Id ++ " failed, need to delete")]
          | none => []) ++
        (match env.FetchSnapshotPolicyById s.SnapshotpolicyId with
          | .ok snapshotpolicy =>
            [Effect.LogEvent (.snapshotpolicy snapshotpolicy)
                env.consts.db_ACT_SNAPSHOT_POLICY_BIND_DISK_FAIL (.text "") self.UserCred,
              Effect.AddActionLogWithStartable (.snapshotpolicy snapshotpolicy)
                env.consts.logclient_ACT_BIND_DISK (.text "") self.UserCred false]
          | .error _ => []), rfl, ?_, (fun h => by cases h), fun s' h => ?_⟩
    · cases hdet : env.RealDetach s <;>
      cases hsp : env.FetchSnapshotPolicyById s.SnapshotpolicyId <;>
        simp [List.countP_cons, Effect.isSetStageFailed]
    · cases h
      rfl

end compute.tasks

namespace compute.tasks

open jsonutils jsonutils.JSONObject

/-- C9, as stated, fails: when the binding and its policy are found,
`OnSnapshotPolicyApply` calls `OpsLog.LogEvent` twice, once for the policy and
once for the disk. -/
theorem applyOnSnapshotPolicyApply_two_events :
    (SnapshotPolicyApplyTask.OnSnapshotPolicyApply (sampleEnv true) sampleTask sampleDisk
      sampleData).countP Effect.isLogEvent = 2 := by
  decide

/-- C9, amended: every execution of `OnSnapshotPolicyApply`, and likewise of
`OnSnapshotPolicyCancel`, ends with the success event for the disk, the
success action log for the disk and `SetStageComplete`, which is called
nowhere before. Exactly one `LogEvent` call is about the disk; one more is
made exactly when the lookup returns a binding (for the apply task: without an
error) and the lookup of its policy succeeds. That one comes first, is about
the snapshot policy found and carries the success action
`ACT_SNAPSHOT_POLICY_BIND_DISK` (for the cancel task
`ACT_SNAPSHOT_POLICY_UNBIND_DISK`): the `LogEvent` calls of an execution are
exactly that event followed by the disk's, or the disk's alone. -/
theorem success_continuations_log_then_complete (env : Env) (self : STask) (disk : SDisk)
    (data : JSONObject) :
    ((∃ before : List Effect,
        SnapshotPolicyApplyTask.OnSnapshotPolicyApply env self disk data =
          before ++
            [Effect.LogEvent (.disk disk) env.consts.db_ACT_APPLY_SNAPSHOT_POLICY (.text "")
                self.UserCred,
              Effect.AddActionLogWithStartable (.disk disk)
                env.consts.logclient_ACT_APPLY_SNAPSHOT_POLICY (.text "") self.UserCred true,
              Effect.SetStageComplete none] ∧
        before.countP Effect.isSetStageComplete = 0) ∧
      (SnapshotPolicyApplyTask.OnSnapshotPolicyApply env self disk data).countP
        (Effect.isLogEventOn (.disk disk)) = 1 ∧
      ((SnapshotPolicyApplyTask.OnSnapshotPolicyApply env self disk data).countP
          Effect.isLogEvent = 1 ∨
        (SnapshotPolicyApplyTask.OnSnapshotPolicyApply env self disk data).countP
          Effect.isLogEvent = 2) ∧
      ((SnapshotPolicyApplyTask.OnSnapshotPolicyApply env self disk data).countP
          Effect.isLogEvent = 2 ↔
        ∃ spd sp,
          env.FetchBySnapshotPolicyDisk ((env.GetString data "snapshotpolicy_id").getD "")
            disk.Id = (some spd, none) ∧
          env.FetchSnapshotPolicyById spd.SnapshotpolicyId = .ok sp) ∧
      (∀ spd sp,
        env.FetchBySnapshotPolicyDisk ((env.GetString data "snapshotpolicy_id").getD "")
          disk.Id = (some spd, none) →
        env.FetchSnapshotPolicyById spd.SnapshotpolicyId = .ok sp →
        (SnapshotPolicyApplyTask.OnSnapshotPolicyApply env self disk data).filter
            Effect.isLogEvent =
          [Effect.LogEvent (.snapshotpolicy sp) env.consts.db_ACT_SNAPSHOT_POLICY_BIND_DISK
              (.text "") self.UserCred,
            Effect.LogEvent (.disk disk) env.consts.db_ACT_APPLY_SNAPSHOT_POLICY (.text "")
              self.UserCred]) ∧
      ((¬ ∃ spd sp,
          env.FetchBySnapshotPolicyDisk ((env.GetString data "snapshotpolicy_id").getD "")
            disk.Id = (some spd, none) ∧
          env.FetchSnapshotPolicyById spd.SnapshotpolicyId = .ok sp) →
        (SnapshotPolicyApplyTask.OnSnapshotPolicyApply env self disk data).filter
            Effect.isLogEvent =
          [Effect.LogEvent (.disk disk) env.consts.db_ACT_APPLY_SNAPSHOT_POLICY (.text "")
            self.UserCred])) ∧
    ((∃ before : List Effect,
        SnapshotPolicyCancelTask.OnSnapshotPolicyCancel env self disk data =
          before ++
            [Effect.LogEvent (.disk disk) env.consts.db_ACT_CANCEL_SNAPSHOT_POLICY (.text "")
                self.UserCred,
              Effect.AddActionLogWithStartable (.disk disk)
                env.consts.logclient_ACT_CANCEL_SNAPSHOT_POLICY (.text "") self.UserCred true,
              Effect.SetStageComplete none] ∧
        before.countP Effect.isSetStageComplete = 0) ∧
      (SnapshotPolicyCancelTask.OnSnapshotPolicyCancel env self disk data).countP
        (Effect.isLogEventOn (.disk disk)) = 1 ∧
      ((SnapshotPolicyCancelTask.OnSnapshotPolicyCancel env self disk data).countP
          Effect.isLogEvent = 1 ∨
        (SnapshotPolicyCancelTask.OnSnapshotPolicyCancel env self disk data).countP
          Effect.isLogEvent = 2) ∧
      ((SnapshotPolicyCancelTask.OnSnapshotPolicyCancel env self disk data).countP
          Effect.isLogEvent = 2 ↔
        ∃ spd sp,
          (env.FetchBySnapshotPolicyDisk ((env.GetString data "snapshotpolicy_id").getD "")
            disk.Id).1 = some spd ∧
          env.FetchSnapshotPolicyById spd.SnapshotpolicyId = .ok sp) ∧
      (∀ spd sp,
        (env.FetchBySnapshotPolicyDisk ((env.GetString data "snapshotpolicy_id").getD "")
          disk.Id).1 = some spd →
        env.FetchSnapshotPolicyById spd.SnapshotpolicyId = .ok sp →
        (SnapshotPolicyCancelTask.OnSnapshotPolicyCancel env self disk data).filter
            Effect.isLogEvent =
          [Effect.LogEvent (.snapshotpolicy sp) env.consts.db_ACT_SNAPSHOT_POLICY_UNBIND_DISK
              (.text "") self.UserCred,
            Effect.LogEvent (.disk disk) env.consts.db_ACT_CANCEL_SNAPSHOT_POLICY (.text "")
              self.UserCred]) ∧
      ((¬ ∃ spd sp,
          (env.FetchBySnapshotPolicyDisk ((env.GetString data "snapshotpolicy_id").getD "")
            disk.Id).1 = some spd ∧
          env.FetchSnapshotPolicyById spd.SnapshotpolicyId = .ok sp) →
        (SnapshotPolicyCancelTask.OnSnapshotPolicyCancel env self disk data).filter
            Effect.isLogEvent =
          [Effect.LogEvent (.disk disk) env.consts.db_ACT_CANCEL_SNAPSHOT_POLICY (.text "")
            self.UserCred])) := by
  constructor
  · rcases hf : env.FetchBySnapshotPolicyDisk ((env.GetString data "snapshotpolicy_id").getD "")
      disk.Id with ⟨spd, err⟩
    refine ⟨⟨_, rfl, ?_⟩, ?_⟩
    · cases err with
      | some err =>
        simp [hf, List.countP_cons, Effect.isSetStageComplete]
      | none =>
        cases spd with
        | none => simp [hf]
        | some spd =>
          cases hsp : env.FetchSnapshotPolicyById spd.SnapshotpolicyId <;>
            simp [hf, hsp, List.countP_cons, Effect.isSetStageComplete]
    · cases err with
      | some err =>
        simp [SnapshotPolicyApplyTask.OnSnapshotPolicyApply, hf, List.countP_cons,
          List.filter_cons, Effect.isLogEvent, Effect.isLogEventOn]
      | none =>
        cases spd with
        | none =>
          simp [SnapshotPolicyApplyTask.OnSnapshotPolicyApply, hf, List.countP_cons,
            List.filter_cons, Effect.isLogEvent, Effect.isLogEventOn]
        | some spd =>
          cases hsp : env.FetchSnapshotPolicyById spd.SnapshotpolicyId <;>
            simp [SnapshotPolicyApplyTask.OnSnapshotPolicyApply, hf, hsp, List.countP_cons,
              List.filter_cons, Effect.isLogEvent, Effect.isLogEventOn] <;>
            (intro s1 p1 h1; subst h1; rw [hsp]; simp)
  · rcases hf : env.FetchBySnapshotPolicyDisk ((env.GetString data "snapshotpolicy_id").getD "")
      disk.Id with ⟨spd, err⟩
    refine ⟨⟨_, rfl, ?_⟩, ?_⟩
    · cases err <;> cases spd with
      | none => simp [hf, List.countP_cons, Effect.isSetStageComplete]
      | some spd =>
        cases hsp : env.FetchSnapshotPolicyById spd.SnapshotpolicyId <;>
          simp [hf, hsp, List.countP_cons, Effect.isSetStageComplete]
    · cases err <;> cases spd with
      | none =>
        simp [SnapshotPolicyCancelTask.OnSnapshotPolicyCancel, hf, List.countP_cons,
          List.filter_cons, Effect.isLogEvent, Effect.isLogEventOn]
      | some spd =>
        cases hsp : env.FetchSnapshotPolicyById spd.SnapshotpolicyId <;>
          simp [SnapshotPolicyCancelTask.OnSnapshotPolicyCancel, hf, hsp, List.countP_cons,
            List.filter_cons, Effect.isLogEvent, Effect.isLogEventOn] <;>
          (intro s1 p1 h1; subst h1; rw [hsp]; simp)

end compute.tasks

namespace compute.tasks

open jsonutils jsonutils.JSONObject

theorem stagesSet_append (xs ys : List Effect) :
    stagesSet (xs ++ ys) = stagesSet xs ++ stagesSet ys := by
  induction xs with
  | nil => rfl
  | cons e rest ih => cases e <;> simp [stagesSet, ih]

theorem applyTaskFail_stagesSet (env : Env) (self : STask) (disk : SDisk)
    (spd : Option SSnapshotPolicyDisk) (reason : JSONObject) :
    stagesSet (SnapshotPolicyApplyTask.taskFail env self disk spd reason) = [] := by
  cases spd with
  | none => simp [SnapshotPolicyApplyTask.taskFail, stagesSet]
  | some s =>
    cases hdet : env.RealDetach s <;>
    cases hsp : env.FetchSnapshotPolicyById s.SnapshotpolicyId <;>
      simp [SnapshotPolicyApplyTask.taskFail, hdet, hsp, stagesSet]

theorem cancelTaskFail_stagesSet (env : Env) (self : STask) (disk : SDisk)
    (spd : Option SSnapshotPolicyDisk) (reason : JSONObject) :
    stagesSet (SnapshotPolicyCancelTask.taskFail env self disk spd reason) = [] := by
  cases spd with
  | none => simp [SnapshotPolicyCancelTask.taskFail, stagesSet]
  | some s =>
    cases hsp : env.FetchSnapshotPolicyById s.SnapshotpolicyId <;>
      simp [SnapshotPolicyCancelTask.taskFail, hsp, stagesSet]

theorem applyOnInit_stagesSet (env : Env) (self : STask) (disk : SDisk) (data : JSONObject) :
    stagesSet (SnapshotPolicyApplyTask.OnInit env self disk data).2 = [] ∨
    stagesSet (SnapshotPolicyApplyTask.OnInit env self disk data).2 =
      ["OnPreSnapshotPolicyApplyComplete"] := by
  have hreq : ∀ spd sp,
      stagesSet (SnapshotPolicyApplyTask.OnInit.request env self disk data spd sp).2 =
        ["OnPreSnapshotPolicyApplyComplete"] := by
    intro spd sp
    cases h : env.RequestPreSnapshotPolicyApply disk sp data with
    | none =>
      simp only [SnapshotPolicyApplyTask.OnInit.request, h]
      rfl
    | some err =>
      simp only [SnapshotPolicyApplyTask.OnInit.request, h, stagesSet_append,
        applyTaskFail_stagesSet]
      rfl
  unfold SnapshotPolicyApplyTask.OnInit
  cases hc : Contains data "need_detach" with
  | false => simp only [hreq, Bool.false_eq_true, if_false, or_true]
  | true =>
    cases hf : env.FetchById ((env.GetString data "need_detach").getD "") with
    | error err => simp only [hf, applyTaskFail_stagesSet, if_true, true_or]
    | ok model => simp only [hf, hreq, if_true, or_true]

theorem applyOnPre_stagesSet (env : Env) (self : STask) (disk : SDisk) (data : JSONObject) :
    stagesSet (SnapshotPolicyApplyTask.OnPreSnapshotPolicyApplyComplete env self disk data) =
      [] ∨
    stagesSet (SnapshotPolicyApplyTask.OnPreSnapshotPolicyApplyComplete env self disk data) =
      ["OnSnapshotPolicyApply"] := by
  have hreq : ∀ spd sp,
      stagesSet (SnapshotPolicyApplyTask.OnPreSnapshotPolicyApplyComplete.request env self disk
        data spd sp) = ["OnSnapshotPolicyApply"] := by
    intro spd sp
    cases h : env.RequestApplySnapshotPolicy disk sp data with
    | none =>
      simp only [SnapshotPolicyApplyTask.OnPreSnapshotPolicyApplyComplete.request, h]
      rfl
    | some err =>
      simp only [SnapshotPolicyApplyTask.OnPreSnapshotPolicyApplyComplete.request, h,
        stagesSet_append, applyTaskFail_stagesSet]
      rfl
  have hcons : ∀ (spd1 : SSnapshotPolicyDisk) (cred : String) (rest : List Effect),
      stagesSet (Effect.RealDetach spd1 cred :: rest) = stagesSet rest := fun _ _ _ => rfl
  unfold SnapshotPolicyApplyTask.OnPreSnapshotPolicyApplyComplete
  cases hc : Contains data "need_detach" with
  | false => simp only [hreq, Bool.false_eq_true, if_false, or_true]
  | true =>
    rcases hf : env.FetchBySnapshotPolicyDisk ((env.GetString data "need_detach").getD "")
      disk.Id with ⟨spd1, err⟩
    cases err with
    | some err => simp only [hf, applyTaskFail_stagesSet, if_true, true_or]
    | none =>
      cases spd1 with
      | none => simp only [hf, hreq, if_true, or_true]
      | some spd1 => simp only [hf, hcons, hreq, if_true, or_true]

theorem cancelOnInit_stagesSet (env : Env) (self : STask) (disk : SDisk) (data : JSONObject) :
    stagesSet (SnapshotPolicyCancelTask.OnInit env self disk data).2 = [] ∨
    stagesSet (SnapshotPolicyCancelTask.OnInit env self disk data).2 =
      ["OnSnapshotPolicyCancel"] := by
  unfold SnapshotPolicyCancelTask.OnInit
  cases hf : env.FetchById ((env.GetString data "snapshot_policy_id").getD "") with
  | error err => simp only [hf, cancelTaskFail_stagesSet, true_or]
  | ok sp =>
    cases hreq : env.RequestCancelSnapshotPolicy disk sp data with
    | none =>
      right
      simp only [hf, hreq]
      rfl
    | some err =>
      right
      simp only [hf, hreq, stagesSet_append, cancelTaskFail_stagesSet]
      rfl

theorem failedContinuations_stagesSet (env : Env) (self : STask) (disk : SDisk)
    (reason : JSONObject) :
    stagesSet (SnapshotPolicyApplyTask.OnPreSnapshotPolicyApplyCompleteFailed env self disk
      reason) = [] ∧
    stagesSet (SnapshotPolicyApplyTask.OnSnapshotPolicyApplyFailed env self disk reason) = [] ∧
    stagesSet (SnapshotPolicyCancelTask.OnSnapshotPolicyCancelFailed env self disk reason) =
      [] := by
  refine ⟨?_, ?_, ?_⟩
  · unfold SnapshotPolicyApplyTask.OnPreSnapshotPolicyApplyCompleteFailed
    rcases hf : env.FetchBySnapshotPolicyDisk ((env.GetString self.Params
      "snapshotpolicy_id").getD "") disk.Id with ⟨spd, err⟩
    cases err <;> simp [hf, applyTaskFail_stagesSet]
  · unfold SnapshotPolicyApplyTask.OnSnapshotPolicyApplyFailed
    rcases hf : env.FetchBySnapshotPolicyDisk ((env.GetString self.Params
      "snapshotpolicy_id").getD "") disk.Id with ⟨spd, err⟩
    cases err <;> simp [hf, applyTaskFail_stagesSet]
  · unfold SnapshotPolicyCancelTask.OnSnapshotPolicyCancelFailed
    rcases hf : env.FetchBySnapshotPolicyDisk ((env.GetString self.Params
      "snapshotpolicy_id").getD "") disk.Id with ⟨spd, err⟩
    cases err <;> simp [hf, cancelTaskFail_stagesSet]

theorem successContinuations_stagesSet (env : Env) (self : STask) (disk : SDisk)
    (data : JSONObject) :
    stagesSet (SnapshotPolicyApplyTask.OnSnapshotPolicyApply env self disk data) = [] ∧
    stagesSet (SnapshotPolicyCancelTask.OnSnapshotPolicyCancel env self disk data) = [] := by
  constructor
  · unfold SnapshotPolicyApplyTask.OnSnapshotPolicyApply
    rcases hf : env.FetchBySnapshotPolicyDisk ((env.GetString data "snapshotpolicy_id").getD "")
      disk.Id with ⟨spd, err⟩
    cases err with
    | some err => simp [hf, stagesSet]
    | none =>
      cases spd with
      | none => simp [hf, stagesSet]
      | some spd =>
        cases hsp : env.FetchSnapshotPolicyById spd.SnapshotpolicyId <;>
          simp [hf, hsp, stagesSet]
  · unfold SnapshotPolicyCancelTask.OnSnapshotPolicyCancel
    rcases hf : env.FetchBySnapshotPolicyDisk ((env.GetString data "snapshotpolicy_id").getD "")
      disk.Id with ⟨spd, err⟩
    cases err <;> cases spd with
    | none => simp [hf, stagesSet]
    | some spd =>
      cases hsp : env.FetchSnapshotPolicyById spd.SnapshotpolicyId <;>
        simp [hf, hsp, stagesSet]

/-- C10: every stage name that a method of `SnapshotPolicyApplyTask` or of
`SnapshotPolicyCancelTask` passes to `SetStage` is the name of a method the
same task type declares, begins with "On", and the task type also declares the
method of that name followed by "Failed". -/
theorem stage_names_have_handlers (env : Env) (self : STask) (disk : SDisk)
    (spd : Option SSnapshotPolicyDisk) (data reason : JSONObject) (t : TaskType)
    (s : String) (hs : s ∈ t.stagesPassed env self disk spd data reason) :
    s ∈ t.methods ∧ (∃ stage, s = "On" ++ stage) ∧ (s ++ "Failed") ∈ t.methods := by
  have hfail := failedContinuations_stagesSet env self disk reason
  have hsucc := successContinuations_stagesSet env self disk data
  cases t with
  | SnapshotPolicyApplyTask =>
    have hmem : s ∈ stagesSet (SnapshotPolicyApplyTask.OnInit env self disk data).2 ++
        stagesSet (SnapshotPolicyApplyTask.OnPreSnapshotPolicyApplyComplete env self disk
          data) := by
      simpa only [TaskType.stagesPassed, applyTaskFail_stagesSet, hfail.1, hfail.2.1, hsucc.1,
        List.nil_append, List.append_nil] using hs
    have hs' : s = "OnPreSnapshotPolicyApplyComplete" ∨ s = "OnSnapshotPolicyApply" := by
      rcases List.mem_append.1 hmem with h | h
      · rcases applyOnInit_stagesSet env self disk data with h1 | h1
        · rw [h1] at h
          cases h
        · rw [h1] at h
          exact Or.inl (List.mem_singleton.1 h)
      · rcases applyOnPre_stagesSet env self disk data with h2 | h2
        · rw [h2] at h
          cases h
        · rw [h2] at h
          exact Or.inr (List.mem_singleton.1 h)
    rcases hs' with rfl | rfl
    · exact ⟨by decide, ⟨"PreSnapshotPolicyApplyComplete", by decide⟩, by decide⟩
    · exact ⟨by decide, ⟨"SnapshotPolicyApply", by decide⟩, by decide⟩
  | SnapshotPolicyCancelTask =>
    have hmem : s ∈ stagesSet (SnapshotPolicyCancelTask.OnInit env self disk data).2 := by
      simpa only [TaskType.stagesPassed, cancelTaskFail_stagesSet, hfail.2.2, hsucc.2,
        List.nil_append, List.append_nil] using hs
    have hs' : s = "OnSnapshotPolicyCancel" := by
      rcases cancelOnInit_stagesSet env self disk data with h1 | h1
      · rw [h1] at hmem
        cases hmem
      · rw [h1] at hmem
        exact List.mem_singleton.1 hmem
    subst hs'
    exact ⟨by decide, ⟨"SnapshotPolicyCancel", by decide⟩, by decide⟩

/-- C10, on the cancel task whose driver accepts the request: `OnInit` passes
"OnSnapshotPolicyCancel" to `SetStage`, and both that method and
"OnSnapshotPolicyCancelFailed" are declared. -/
theorem stage_names_have_handlers_witness :
    "OnSnapshotPolicyCancel" ∈
        TaskType.SnapshotPolicyCancelTask.stagesPassed (sampleEnv true) sampleTask sampleDisk
          none sampleData (JSONString "r") ∧
    "OnSnapshotPolicyCancel" ∈ TaskType.SnapshotPolicyCancelTask.methods ∧
    ("OnSnapshotPolicyCancel" ++ "Failed") ∈ TaskType.SnapshotPolicyCancelTask.methods :=
  have hs : "OnSnapshotPolicyCancel" ∈
      TaskType.SnapshotPolicyCancelTask.stagesPassed (sampleEnv true) sampleTask sampleDisk
        none sampleData (JSONString "r") := by decide
  have h := stage_names_have_handlers (sampleEnv true) sampleTask sampleDisk none sampleData
    (JSONString "r") TaskType.SnapshotPolicyCancelTask "OnSnapshotPolicyCancel" hs
  ⟨hs, h.1, h.2.2⟩

end compute.tasks

namespace jsonutils

open JSONObject

theorem getField_setField_ne (k k' : String) (v : JSONObject)
    (fields : List (String × JSONObject)) (h : k' ≠ k) :
    getField k' (setField k v fields) = getField k' fields := by
  induction fields with
  | nil => simp [setField, getField, Ne.symm h]
  | cons kv rest ih =>
    obtain ⟨k0, v0⟩ := kv
    by_cases hk : k0 = k
    · subst hk
      simp [setField, getField, Ne.symm h]
    · by_cases hk' : k0 = k'
      · subst hk'
        simp [setField, getField, h]
      · simp [setField, getField, hk, hk', ih]

theorem getField_setField_self (k : String) (v : JSONObject)
    (fields : List (String × JSONObject)) :
    getField k (setField k v fields) = some v := by
  induction fields with
  | nil => simp [setField, getField]
  | cons kv rest ih =>
    obtain ⟨k0, v0⟩ := kv
    by_cases hk : k0 = k
    · simp [setField, getField, hk]
    · simp [setField, getField, hk, ih]

theorem Get_Add_ne (d o : JSONObject) (key key' : String) (h : key' ≠ key) :
    Get (jsonutils.Add d o key) key' = Get d key' := by
  cases d <;> simp [jsonutils.Add, Get, getField_setField_ne _ _ _ _ h]

end jsonutils

namespace compute.tasks

open jsonutils jsonutils.JSONObject

/-- C11: `SnapshotPolicyApplyTask.OnInit` and `SnapshotPolicyCancelTask.OnInit`
leave every key of the task's params other than snapshotpolicy_id as it was:
looking such a key up after the handler gives what it gave before. -/
theorem OnInit_params_frame (env : Env) (self : STask) (disk : SDisk) (data : JSONObject)
    (key : String) (hkey : key ≠ "snapshotpolicy_id") :
    Get (SnapshotPolicyApplyTask.OnInit env self disk data).1.Params key =
      Get self.Params key ∧
    Get (SnapshotPolicyCancelTask.OnInit env self disk data).1.Params key =
      Get self.Params key := by
  have hreq : ∀ spd sp,
      Get (SnapshotPolicyApplyTask.OnInit.request env self disk data spd sp).1.Params key =
        Get self.Params key := by
    intro spd sp
    cases h : env.RequestPreSnapshotPolicyApply disk sp data <;>
      simp only [SnapshotPolicyApplyTask.OnInit.request, h, Get_Add_ne _ _ _ _ hkey]
  constructor
  · unfold SnapshotPolicyApplyTask.OnInit
    cases hc : Contains data "need_detach" with
    | false => simp only [hreq, Bool.false_eq_true, if_false]
    | true =>
      cases hf : env.FetchById ((env.GetString data "need_detach").getD "") with
      | error err => simp only [hf, if_true]
      | ok model => simp only [hf, hreq, if_true]
  · unfold SnapshotPolicyCancelTask.OnInit
    cases hf : env.FetchById ((env.GetString data "snapshot_policy_id").getD "") with
    | error err => simp only [hf, Get_Add_ne _ _ _ _ hkey]
    | ok sp =>
      cases hreq : env.RequestCancelSnapshotPolicy disk sp data <;>
        simp only [hf, hreq, Get_Add_ne _ _ _ _ hkey]

/-- C11, on a task whose params hold disk_size and an older snapshotpolicy_id:
after either handler disk_size is still "10". -/
theorem OnInit_params_frame_witness :
    Get (SnapshotPolicyApplyTask.OnInit (sampleEnv true)
        ⟨JSONDict [("disk_size", JSONString "10"), ("snapshotpolicy_id", JSONString "old")],
          "admin"⟩ sampleDisk sampleData).1.Params "disk_size" =
      Get (JSONDict [("disk_size", JSONString "10"), ("snapshotpolicy_id", JSONString "old")])
        "disk_size" ∧
    Get (SnapshotPolicyCancelTask.OnInit (sampleEnv true)
        ⟨JSONDict [("disk_size", JSONString "10"), ("snapshotpolicy_id", JSONString "old")],
          "admin"⟩ sampleDisk sampleData).1.Params "disk_size" =
      Get (JSONDict [("disk_size", JSONString "10"), ("snapshotpolicy_id", JSONString "old")])
        "disk_size" :=
  OnInit_params_frame (sampleEnv true)
    ⟨JSONDict [("disk_size", JSONString "10"), ("snapshotpolicy_id", JSONString "old")],
      "admin"⟩ sampleDisk sampleData "disk_size" (by decide)

end compute.tasks

namespace taskman

open jsonutils jsonutils.JSONObject

/-- C12: running a queued unit for a task whose record has status complete or
failed changes nothing: the store is returned as it was, so every field of the
record, timestamps included, is unchanged, and no handler is invoked. -/
theorem Run_terminal_noop {σ : Type} (repo : Repository σ) (eng : Engine) (store : σ)
    (t : taskTask) (record : TaskRecord) (hload : repo.Load store t.taskId = some record)
    (hstatus : record.status = .complete ∨ record.status = .failed) :
    taskTask.Run repo eng store t = (store, []) ∧
    repo.Load (taskTask.Run repo eng store t).1 t.taskId = some record := by
  have hterm : record.status.isTerminal = true := by
    rcases hstatus with h | h <;> rw [h] <;> rfl
  have hrun : taskTask.Run repo eng store t = (store, []) := by
    simp [taskTask.Run, execTask, hload, hterm]
  exact ⟨hrun, by rw [hrun]; exact hload⟩

/-- C12, for the finished task "t9": a re-delivered unit leaves the store as
it is and runs no handler. -/
theorem Run_terminal_noop_witness :
    taskTask.Run sampleRepository sampleEngine [sampleCompleteRecord] ⟨"t9", JSONNull⟩ =
      ([sampleCompleteRecord], []) ∧
    sampleRepository.Load
      (taskTask.Run sampleRepository sampleEngine [sampleCompleteRecord] ⟨"t9", JSONNull⟩).1
      "t9" = some sampleCompleteRecord :=
  Run_terminal_noop sampleRepository sampleEngine [sampleCompleteRecord] ⟨"t9", JSONNull⟩
    sampleCompleteRecord rfl (Or.inl rfl)

end taskman

namespace compute.tasks

open jsonutils jsonutils.JSONObject

/-- C18: the action-log entries written by either `taskFail` helper all have
success = false (one entry for the disk, preceded by one for the policy when a
binding is given and its policy is found), and the entries written by
`OnSnapshotPolicyApply` and `OnSnapshotPolicyCancel` all have success = true. -/
theorem action_log_success_flags (env : Env) (self : STask) (disk : SDisk)
    (spd : Option SSnapshotPolicyDisk) (reason data : JSONObject) :
    (((SnapshotPolicyApplyTask.taskFail env self disk spd reason).filterMap
          Effect.actionLogSuccess = [false]) ∨
      ((SnapshotPolicyApplyTask.taskFail env self disk spd reason).filterMap
          Effect.actionLogSuccess = [false, false])) ∧
    (((SnapshotPolicyCancelTask.taskFail env self disk spd reason).filterMap
          Effect.actionLogSuccess = [false]) ∨
      ((SnapshotPolicyCancelTask.taskFail env self disk spd reason).filterMap
          Effect.actionLogSuccess = [false, false])) ∧
    (((SnapshotPolicyApplyTask.OnSnapshotPolicyApply env self disk data).filterMap
          Effect.actionLogSuccess = [true]) ∨
      ((SnapshotPolicyApplyTask.OnSnapshotPolicyApply env self disk data).filterMap
          Effect.actionLogSuccess = [true, true])) ∧
    (((SnapshotPolicyCancelTask.OnSnapshotPolicyCancel env self disk data).filterMap
          Effect.actionLogSuccess = [true]) ∨
      ((SnapshotPolicyCancelTask.OnSnapshotPolicyCancel env self disk data).filterMap
          Effect.actionLogSuccess = [true, true])) := by
  refine ⟨?_, ?_, ?_, ?_⟩
  · cases spd with
    | none =>
      simp [SnapshotPolicyApplyTask.taskFail, List.filterMap_cons, Effect.actionLogSuccess]
    | some s =>
      cases hdet : env.RealDetach s <;>
      cases hsp : env.FetchSnapshotPolicyById s.SnapshotpolicyId <;>
        simp [SnapshotPolicyApplyTask.taskFail, hdet, hsp, List.filterMap_cons,
          Effect.actionLogSuccess]
  · cases spd with
    | none =>
      simp [SnapshotPolicyCancelTask.taskFail, List.filterMap_cons, Effect.actionLogSuccess]
    | some s =>
      cases hsp : env.FetchSnapshotPolicyById s.SnapshotpolicyId <;>
        simp [SnapshotPolicyCancelTask.taskFail, hsp, List.filterMap_cons,
          Effect.actionLogSuccess]
  · rcases hf : env.FetchBySnapshotPolicyDisk ((env.GetString data "snapshotpolicy_id").getD "")
      disk.Id with ⟨b, err⟩
    cases err with
    | some err =>
      simp [SnapshotPolicyApplyTask.OnSnapshotPolicyApply, hf, List.filterMap_cons,
        Effect.actionLogSuccess]
    | none =>
      cases b with
      | none =>
        simp [SnapshotPolicyApplyTask.OnSnapshotPolicyApply, hf, List.filterMap_cons,
          Effect.actionLogSuccess]
      | some b =>
        cases hsp : env.FetchSnapshotPolicyById b.SnapshotpolicyId <;>
          simp [SnapshotPolicyApplyTask.OnSnapshotPolicyApply, hf, hsp, List.filterMap_cons,
            Effect.actionLogSuccess]
  · rcases hf : env.FetchBySnapshotPolicyDisk ((env.GetString data "snapshotpolicy_id").getD "")
      disk.Id with ⟨b, err⟩
    cases err <;> cases b with
    | none =>
      simp [SnapshotPolicyCancelTask.OnSnapshotPolicyCancel, hf, List.filterMap_cons,
        Effect.actionLogSuccess]
    | some b =>
      cases hsp : env.FetchSnapshotPolicyById b.SnapshotpolicyId <;>
        simp [SnapshotPolicyCancelTask.OnSnapshotPolicyCancel, hf, hsp, List.filterMap_cons,
          Effect.actionLogSuccess]

theorem exists_before_last_two (X : List Effect) (a b c n f : Effect)
    (P : List Effect → Prop) (h : P (X ++ [a, b, c])) :
    ∃ before : List Effect, X ++ [a, b, c, n, f] = before ++ [n, f] ∧ P before :=
  ⟨X ++ [a, b, c], by simp, h⟩

/-- C19: every call of `SnapshotPolicyApplyTask.taskFail` makes exactly one
`NotifySystemErrorWithCtx` call; it names the disk's id and name, carries the
text of the reason, and is the call right before `SetStageFailed`, which is
called nowhere earlier. -/
theorem applyTaskFail_notifies_once (env : Env) (self : STask) (disk : SDisk)
    (spd : Option SSnapshotPolicyDisk) (reason : JSONObject) :
    (SnapshotPolicyApplyTask.taskFail env self disk spd reason).filter
        Effect.isNotifySystemError =
      [Effect.NotifySystemErrorWithCtx disk.Id disk.Name env.consts.DISK_APPLY_SNAPSHOT_FAIL
        (env.stringOf reason)] ∧
    ∃ before : List Effect,
      SnapshotPolicyApplyTask.taskFail env self disk spd reason =
        before ++
          [Effect.NotifySystemErrorWithCtx disk.Id disk.Name
              env.consts.DISK_APPLY_SNAPSHOT_FAIL (env.stringOf reason),
            Effect.SetStageFailed reason] ∧
      before.countP Effect.isSetStageFailed = 0 := by
  constructor
  · cases spd with
    | none =>
      simp [SnapshotPolicyApplyTask.taskFail, List.filter_cons, Effect.isNotifySystemError]
    | some s =>
      cases hdet : env.RealDetach s <;>
      cases hsp : env.FetchSnapshotPolicyById s.SnapshotpolicyId <;>
        simp [SnapshotPolicyApplyTask.taskFail, hdet, hsp, List.filter_cons,
          Effect.isNotifySystemError]
  · unfold SnapshotPolicyApplyTask.taskFail
    refine exists_before_last_two _ _ _ _ _ _
      (fun l => l.countP Effect.isSetStageFailed = 0) ?_
    cases spd with
    | none => simp [List.countP_cons, Effect.isSetStageFailed]
    | some s =>
      cases hdet : env.RealDetach s <;>
      cases hsp : env.FetchSnapshotPolicyById s.SnapshotpolicyId <;>
        simp [hdet, hsp, List.countP_cons, Effect.isSetStageFailed]

end compute.tasks

namespace mcclient.options.compute

open jsonutils jsonutils.JSONObject

/-- C20: `MongoDBUpdateOptions.Params` returns the error of `StructToParams`
with nil params when that fails. Otherwise it returns the parameters of
`StructToParams` with disable_delete set to true when Delete is "disable", set
to false for every other non-empty Delete, and with nothing added when Delete
is empty; no other key is touched. -/
theorem Params_disable_delete
    (StructToParams : MongoDBUpdateOptions → Except error (List (String × JSONObject)))
    (opts : MongoDBUpdateOptions) :
    (∀ err, StructToParams opts = .error err →
      MongoDBUpdateOptions.Params StructToParams opts = (none, some err)) ∧
    (∀ fields, StructToParams opts = .ok fields →
      (opts.Delete = "disable" →
        MongoDBUpdateOptions.Params StructToParams opts =
          (some (JSONDict (setField "disable_delete" JSONTrue fields)), none) ∧
        Get (JSONDict (setField "disable_delete" JSONTrue fields)) "disable_delete" =
          some JSONTrue) ∧
      (opts.Delete ≠ "" → opts.Delete ≠ "disable" →
        MongoDBUpdateOptions.Params StructToParams opts =
          (some (JSONDict (setField "disable_delete" JSONFalse fields)), none) ∧
        Get (JSONDict (setField "disable_delete" JSONFalse fields)) "disable_delete" =
          some JSONFalse) ∧
      (opts.Delete = "" →
        MongoDBUpdateOptions.Params StructToParams opts = (some (JSONDict fields), none)) ∧
      (∀ value key, key ≠ "disable_delete" →
        Get (JSONDict (setField "disable_delete" value fields)) key =
          Get (JSONDict fields) key)) := by
  refine ⟨fun err h => by simp [MongoDBUpdateOptions.Params, h], fun fields h => ⟨?_, ?_, ?_, ?_⟩⟩
  · intro hd
    refine ⟨?_, by simp [Get, getField_setField_self]⟩
    have hsize : 0 < "disable".utf8ByteSize := by decide
    simp [MongoDBUpdateOptions.Params, h, hd, hsize, jsonutils.Add]
  · intro hne hnd
    have hsize : 0 < opts.Delete.utf8ByteSize := by
      rcases Nat.eq_zero_or_pos opts.Delete.utf8ByteSize with h0 | h0
      · exact absurd ((taskman.utf8ByteSize_eq_zero_iff _).1 h0) hne
      · exact h0
    refine ⟨?_, by simp [Get, getField_setField_self]⟩
    simp [MongoDBUpdateOptions.Params, h, hnd, hsize, jsonutils.Add]
  · intro he
    have hsize : opts.Delete.utf8ByteSize = 0 := (taskman.utf8ByteSize_eq_zero_iff _).2 he
    simp [MongoDBUpdateOptions.Params, h, hsize]
  · intro value key hkey
    simp [Get, getField_setField_ne _ _ _ _ hkey]

end mcclient.options.compute

namespace base64

theorem decodeMap_encodeSextet (v : Nat) (h : v < 64) :
    decodeMap (encodeSextet v) = some v := by
  have key : ∀ i : Fin 64, decodeMap (encodeSextet i.val) = some i.val := by decide
  exact key ⟨v, h⟩

theorem encodeSextet_plain (v : Nat) (h : v < 64) :
    encodeSextet v ≠ 46 ∧ encodeSextet v ≠ 123 ∧ (encodeSextet v).val < 128 ∧
      bytes.asciiSpace (encodeSextet v) = false := by
  have key : ∀ i : Fin 64, encodeSextet i.val ≠ 46 ∧ encodeSextet i.val ≠ 123 ∧
      (encodeSextet i.val).val < 128 ∧ bytes.asciiSpace (encodeSextet i.val) = false := by
    decide
  exact key ⟨v, h⟩

theorem Encode_plain (x : Bytes) :
    ∀ c ∈ Encode x, c ≠ 46 ∧ c ≠ 123 ∧ c.val < 128 ∧ bytes.asciiSpace c = false := by
  induction x using Encode.induct with
  | case1 a b c rest ih =>
    intro ch hch
    simp only [Encode, List.mem_cons] at hch
    rcases hch with h | h | h | h | h
    · exact h ▸ encodeSextet_plain _ (Nat.mod_lt _ (by decide))
    · exact h ▸ encodeSextet_plain _ (Nat.mod_lt _ (by decide))
    · exact h ▸ encodeSextet_plain _ (Nat.mod_lt _ (by decide))
    · exact h ▸ encodeSextet_plain _ (Nat.mod_lt _ (by decide))
    · exact ih ch h
  | case2 a b =>
    intro ch hch
    simp only [Encode, List.mem_cons, List.mem_singleton, List.not_mem_nil, or_false] at hch
    rcases hch with h | h | h
    · exact h ▸ encodeSextet_plain _ (Nat.mod_lt _ (by decide))
    · exact h ▸ encodeSextet_plain _ (Nat.mod_lt _ (by decide))
    · exact h ▸ encodeSextet_plain _ (Nat.mod_lt _ (by decide))
  | case3 a =>
    intro ch hch
    simp only [Encode, List.mem_cons, List.mem_singleton, List.not_mem_nil, or_false] at hch
    rcases hch with h | h
    · exact h ▸ encodeSextet_plain _ (Nat.mod_lt _ (by decide))
    · exact h ▸ encodeSextet_plain _ (Nat.mod_lt _ (by decide))
  | case4 =>
    intro ch hch
    cases hch

theorem Encode_length (x : Bytes) : (Encode x).length = (x.length * 4 + 2) / 3 := by
  induction x using Encode.induct with
  | case1 a b c rest ih =>
    simp only [Encode, List.length_cons, ih]
    omega
  | case2 a b => simp [Encode]
  | case3 a => simp [Encode]
  | case4 => rfl

theorem ofNat_byte (a : Byte) (n : Nat) (h : n = a.val) : (Fin.ofNat n : Byte) = a := by
  apply Fin.ext
  subst h
  simp [Fin.ofNat, Nat.mod_eq_of_lt a.isLt]

theorem decode_Encode (x : Bytes) :
    ∃ vs, (∀ si, decodeChars si (Encode x) = .ok vs) ∧
      ∀ srcLen, decodeQuanta srcLen vs = .ok x := by
  induction x using Encode.induct with
  | case1 a b c rest ih =>
    obtain ⟨vs, h1, h2⟩ := ih
    have ha := a.isLt
    have hb := b.isLt
    have hc := c.isLt
    refine ⟨(a.val * 65536 + b.val * 256 + c.val) / 262144 % 64 ::
      (a.val * 65536 + b.val * 256 + c.val) / 4096 % 64 ::
      (a.val * 65536 + b.val * 256 + c.val) / 64 % 64 ::
      (a.val * 65536 + b.val * 256 + c.val) % 64 :: vs, ?_, ?_⟩
    · intro si
      simp only [Encode, decodeChars,
        decodeMap_encodeSextet _ (Nat.mod_lt _ (by decide : 0 < 64)), h1]
    · intro srcLen
      simp only [decodeQuanta, h2]
      congr 1
      refine congrArg₂ _ (ofNat_byte a _ (by omega)) (congrArg₂ _ (ofNat_byte b _ (by omega))
        (congrArg₂ _ (ofNat_byte c _ (by omega)) rfl))
  | case2 a b =>
    have ha := a.isLt
    have hb := b.isLt
    refine ⟨[(a.val * 65536 + b.val * 256) / 262144 % 64,
      (a.val * 65536 + b.val * 256) / 4096 % 64, (a.val * 65536 + b.val * 256) / 64 % 64],
      ?_, ?_⟩
    · intro si
      simp only [Encode, decodeChars,
        decodeMap_encodeSextet _ (Nat.mod_lt _ (by decide : 0 < 64))]
    · intro srcLen
      simp only [decodeQuanta]
      congr 1
      refine congrArg₂ _ (ofNat_byte a _ (by omega)) (congrArg₂ _ (ofNat_byte b _ (by omega))
        rfl)
  | case3 a =>
    have ha := a.isLt
    refine ⟨[(a.val * 65536) / 262144 % 64, (a.val * 65536) / 4096 % 64], ?_, ?_⟩
    · intro si
      simp only [Encode, decodeChars,
        decodeMap_encodeSextet _ (Nat.mod_lt _ (by decide : 0 < 64))]
    · intro srcLen
      simp only [decodeQuanta]
      congr 1
      refine congrArg₂ _ (ofNat_byte a _ (by omega)) rfl
  | case4 => exact ⟨[], fun _ => rfl, fun _ => rfl⟩

theorem DecodeString_Encode (x : Bytes) : DecodeString (Encode x) = .ok x := by
  obtain ⟨vs, h1, h2⟩ := decode_Encode x
  simp only [DecodeString, h1, h2]

theorem DecodeToBuffer_Encode (x : Bytes) : DecodeToBuffer (Encode x) = .ok x := by
  have hlen : DecodedLen (Encode x).length - x.length = 0 := by
    rw [Encode_length, DecodedLen]
    omega
  simp only [DecodeToBuffer, DecodeString_Encode, hlen, List.replicate_zero, List.append_nil]

end base64

namespace bytes

theorem IndexByte_eq_none (s : Bytes) (c : Byte) : IndexByte s c = none ↔ c ∉ s := by
  induction s with
  | nil => simp [IndexByte]
  | cons b rest ih =>
    by_cases hb : b = c
    · simp [IndexByte, hb]
    · simp [IndexByte, hb, ih, Ne.symm hb]

theorem IndexByte_append (a rest : Bytes) (c : Byte) (h : c ∉ a) :
    IndexByte (a ++ c :: rest) c = some a.length := by
  induction a with
  | nil => simp [IndexByte]
  | cons b a ih =>
    have hb : b ≠ c := fun e => h (by simp [e])
    have ha : c ∉ a := fun e => h (by simp [e])
    simp [IndexByte, hb, ih ha]

theorem IndexByte_eq_some (s : Bytes) (c : Byte) (i : Nat) (h : IndexByte s c = some i) :
    i < s.length ∧ c ∉ s.take i ∧ s = s.take i ++ c :: s.drop (i + 1) := by
  induction s generalizing i with
  | nil => simp [IndexByte] at h
  | cons b rest ih =>
    by_cases hb : b = c
    · simp [IndexByte, hb] at h
      subst h
      simp [hb]
    · simp only [IndexByte, hb, if_false, Option.map_eq_some'] at h
      obtain ⟨j, hj, rfl⟩ := h
      obtain ⟨h1, h2, h3⟩ := ih j hj
      refine ⟨by simp; omega, ?_, ?_⟩
      · simp [List.take_succ_cons, Ne.symm hb, h2]
      · simp only [List.take_succ_cons, List.drop_succ_cons, List.cons_append]
        rw [← h3]

theorem flatten_chunks (n : Nat) (b : Bytes) (room : Nat) (cur : Bytes) :
    (chunks n b room cur).flatten = cur ++ b := by
  induction b generalizing room cur with
  | nil =>
    cases cur <;> simp [chunks]
  | cons x rest ih =>
    cases room with
    | zero => simp [chunks, ih]
    | succ room => simp [chunks, ih]

theorem NewReader_clean (n : Nat) (b : Bytes) : (NewReader n b).clean = true := by
  unfold NewReader
  induction chunks n b n [] with
  | nil => rfl
  | cons c rest ih => simpa [io.Reader.clean] using ih

theorem NewReader_bytes (n : Nat) (b : Bytes) : (NewReader n b).bytes = b := by
  have h : ∀ l : List Bytes,
      io.Reader.bytes (l.map (fun chunk => (chunk, (none : Option io.ReadError)))) =
        l.flatten := by
    intro l
    induction l with
    | nil => rfl
    | cons c rest ih => simp [io.Reader.bytes, ih]
  unfold NewReader
  rw [h, flatten_chunks]
  rfl

theorem TrimSpace_stop_plain (TrimFunc : Bytes → Bytes) (s : Bytes)
    (h : ∀ c ∈ s, c.val < 128 ∧ asciiSpace c = false) :
    TrimSpace.stop TrimFunc s = s.reverse := by
  cases s with
  | nil => rfl
  | cons c rest =>
    have hc := h c (by simp)
    have h1 : ¬ c.val ≥ 128 := by omega
    simp [TrimSpace.stop, h1, hc.2]

theorem TrimSpace_plain (TrimFunc : Bytes → Bytes) (s : Bytes)
    (h : ∀ c ∈ s, c.val < 128 ∧ asciiSpace c = false) :
    TrimSpace TrimFunc s = s := by
  cases s with
  | nil => rfl
  | cons c rest =>
    have hc := h c (by simp)
    have h1 : ¬ c.val ≥ 128 := by omega
    have h2 : ∀ x ∈ (c :: rest).reverse, x.val < 128 ∧ asciiSpace x = false :=
      fun x hx => h x (List.mem_reverse.1 hx)
    simp only [TrimSpace, h1, hc.2, if_false, Bool.false_eq_true]
    rw [TrimSpace_stop_plain TrimFunc _ h2, List.reverse_reverse]

end bytes

namespace jws

open bytes

theorem shorten_assign_sofar (st : SplitState) (i : Nat) (h : i < st.sofar.length) :
    (SplitCompact.shorten (SplitCompact.assign st i) i).sofar = st.sofar.drop (i + 1) := by
  obtain ⟨p, q, s, n, state, sofar⟩ := st
  simp only at h
  rcases state with _ | _ | _ | k <;>
    simp [SplitCompact.shorten, SplitCompact.assign, h]

theorem shorten_assign_append (st : SplitState) (i : Nat) (e : Bytes)
    (h : i < st.sofar.length) :
    SplitCompact.shorten (SplitCompact.assign { st with sofar := st.sofar ++ e } i) i =
      { SplitCompact.shorten (SplitCompact.assign st i) i with
        sofar := (SplitCompact.shorten (SplitCompact.assign st i) i).sofar ++ e } := by
  obtain ⟨p, q, s, n, state, sofar⟩ := st
  simp only at h
  have h' : i < sofar.length + e.length := by omega
  have ht : List.take i (sofar ++ e) = List.take i sofar :=
    List.take_append_of_le_length (by omega)
  have hd : List.drop (i + 1) (sofar ++ e) = List.drop (i + 1) sofar ++ e :=
    List.drop_append_of_le_length (by omega)
  rcases state with _ | _ | _ | k <;>
    simp [SplitCompact.shorten, SplitCompact.assign, h, h', ht, hd]

theorem inner_fuel (eof : Bool) (f1 f2 : Nat) (st : SplitState)
    (h1 : st.sofar.length < f1) (h2 : st.sofar.length < f2) :
    SplitCompact.inner eof f1 st = SplitCompact.inner eof f2 st := by
  induction f1 generalizing f2 st with
  | zero => omega
  | succ f1 ih =>
    cases f2 with
    | zero => omega
    | succ f2 =>
      cases hidx : IndexByte st.sofar period with
      | none => simp [SplitCompact.inner, hidx]
      | some i =>
        obtain ⟨hi, _, _⟩ := IndexByte_eq_some _ _ _ hidx
        have hlen : (SplitCompact.shorten (SplitCompact.assign
            { st with periods := st.periods + 1 } i) i).sofar.length < st.sofar.length := by
          rw [shorten_assign_sofar { st with periods := st.periods + 1 } i hi]
          simp only [List.length_drop]
          omega
        simp only [SplitCompact.inner, hidx]
        exact ih _ _ (by omega) (by omega)

theorem inner_append (eof : Bool) (e : Bytes) (f : Nat) (st : SplitState) (f1 f2 : Nat)
    (h : st.sofar.length < f)
    (h1 : ((SplitCompact.inner false f st).sofar ++ e).length < f1)
    (h2 : (st.sofar ++ e).length < f2) :
    SplitCompact.inner eof f1
        { SplitCompact.inner false f st with
          sofar := (SplitCompact.inner false f st).sofar ++ e } =
      SplitCompact.inner eof f2 { st with sofar := st.sofar ++ e } := by
  induction f generalizing st f1 f2 with
  | zero => omega
  | succ f ih =>
    cases hidx : IndexByte st.sofar period with
    | none =>
      have hs : SplitCompact.inner false (f + 1) st = st := by
        simp [SplitCompact.inner, hidx]
      rw [hs] at h1 ⊢
      exact inner_fuel eof f1 f2 _ h1 h2
    | some i =>
      obtain ⟨hi, hnot, hsplit⟩ := IndexByte_eq_some _ _ _ hidx
      have hidx' : IndexByte (st.sofar ++ e) period = some i := by
        have := IndexByte_append (st.sofar.take i) (st.sofar.drop (i + 1) ++ e) period hnot
        rw [List.length_take, Nat.min_eq_left (Nat.le_of_lt hi)] at this
        rw [← this]
        congr 1
        conv_lhs => rw [hsplit]
        simp
      have hs : SplitCompact.inner false (f + 1) st =
          SplitCompact.inner false f (SplitCompact.shorten (SplitCompact.assign
            { st with periods := st.periods + 1 } i) i) := by
        simp [SplitCompact.inner, hidx]
      have hlen : (SplitCompact.shorten (SplitCompact.assign
          { st with periods := st.periods + 1 } i) i).sofar.length < st.sofar.length := by
        rw [shorten_assign_sofar { st with periods := st.periods + 1 } i hi]
        simp only [List.length_drop]
        omega
      cases f2 with
      | zero => omega
      | succ f2 =>
        rw [hs] at h1 ⊢
        have hstep : SplitCompact.inner eof (f2 + 1) { st with sofar := st.sofar ++ e } =
            SplitCompact.inner eof f2
              { SplitCompact.shorten (SplitCompact.assign
                  { st with periods := st.periods + 1 } i) i with
                sofar := (SplitCompact.shorten (SplitCompact.assign
                  { st with periods := st.periods + 1 } i) i).sofar ++ e } := by
          have := shorten_assign_append { st with periods := st.periods + 1 } i e hi
          simp only [SplitCompact.inner, hidx']
          rw [← this]
        rw [hstep]
        refine ih _ f1 f2 (by omega) h1 ?_
        simp only [List.length_append] at h2 hlen ⊢
        omega

theorem feed_feed (eof : Bool) (st : SplitState) (d e : Bytes) :
    SplitCompact.feed eof (SplitCompact.feed false st d) e =
      SplitCompact.feed eof st (d ++ e) := by
  have := inner_append eof e ((st.sofar ++ d).length + 1) { st with sofar := st.sofar ++ d }
    (((SplitCompact.inner false ((st.sofar ++ d).length + 1)
      { st with sofar := st.sofar ++ d }).sofar ++ e).length + 1)
    ((st.sofar ++ (d ++ e)).length + 1) (by simp) (by simp) (by simp)
  simpa [SplitCompact.feed] using this

theorem loop_clean (st : SplitState) (rdr : io.Reader) (h : rdr.clean = true) :
    SplitCompact.loop st rdr = SplitCompact.finish (SplitCompact.feed true st rdr.bytes) := by
  induction rdr generalizing st with
  | nil => rfl
  | cons r rest ih =>
    obtain ⟨data, err⟩ := r
    cases err with
    | none =>
      simp only [SplitCompact.loop, io.Reader.bytes]
      rw [ih _ (by simpa [io.Reader.clean] using h), feed_feed]
    | some err =>
      cases err with
      | EOF => rfl
      | other err => simp [io.Reader.clean] at h

end jws

namespace jws

open bytes

theorem inner_step (eof : Bool) (f : Nat) (st : SplitState) (a rest : Bytes)
    (hsofar : st.sofar = a ++ period :: rest) (ha : period ∉ a) :
    SplitCompact.inner eof (f + 1) st =
      SplitCompact.inner eof f (SplitCompact.shorten (SplitCompact.assign
        { st with periods := st.periods + 1 } a.length) a.length) := by
  have hidx : IndexByte st.sofar period = some a.length := by
    rw [hsofar]
    exact IndexByte_append a rest period ha
  simp only [SplitCompact.inner, hidx]

theorem inner_last (f : Nat) (st : SplitState) (h : period ∉ st.sofar) :
    SplitCompact.inner true (f + 1) st =
      SplitCompact.shorten (SplitCompact.assign st st.sofar.length) st.sofar.length := by
  have hidx : IndexByte st.sofar period = none := (IndexByte_eq_none _ _).2 h
  simp [SplitCompact.inner, hidx]

theorem feed_three_segments (p q s : Bytes) (hp : period ∉ p) (hq : period ∉ q)
    (hs : period ∉ s) :
    SplitCompact.feed true
        { protectedHdr := [], payload := [], signature := [], periods := 0, state := 0,
          sofar := [] }
        (p ++ [period] ++ q ++ [period] ++ s) =
      { protectedHdr := p, payload := q, signature := s, periods := 2, state := 2,
        sofar := s } := by
  have hfuel : (p ++ [period] ++ q ++ [period] ++ s).length + 1 =
      (p.length + q.length + s.length) + 1 + 1 + 1 := by
    simp only [List.length_append, List.length_singleton]
    omega
  simp only [SplitCompact.feed, List.nil_append, hfuel]
  rw [inner_step true _ _ p (q ++ period :: s) (by simp) hp]
  have h1 : SplitCompact.shorten (SplitCompact.assign
      { protectedHdr := [], payload := [], signature := [], periods := 0 + 1, state := 0,
        sofar := p ++ [period] ++ q ++ [period] ++ s } p.length) p.length =
      { protectedHdr := p, payload := [], signature := [], periods := 1, state := 1,
        sofar := q ++ period :: s } := by
    simp [SplitCompact.shorten, SplitCompact.assign]
  rw [h1, inner_step true _ _ q s rfl hq]
  have h2 : SplitCompact.shorten (SplitCompact.assign
      { protectedHdr := p, payload := [], signature := [], periods := 1 + 1, state := 1,
        sofar := q ++ period :: s } q.length) q.length =
      { protectedHdr := p, payload := q, signature := [], periods := 2, state := 2,
        sofar := s } := by
    simp [SplitCompact.shorten, SplitCompact.assign]
  rw [h2, inner_last _ _ hs]
  simp [SplitCompact.shorten, SplitCompact.assign]

/-- C14: for byte strings `p`, `q` and `s` without a period, possibly empty,
`SplitCompact` over any reader that delivers `p` + "." + `q` + "." + `s`
without a non-EOF error, in whatever division into reads, returns `p`, `q` and
`s` as protected header, payload and signature, and no error. -/
theorem SplitCompact_three_segments (p q s : Bytes) (rdr : io.Reader)
    (hp : period ∉ p) (hq : period ∉ q) (hs : period ∉ s) (hclean : rdr.clean = true)
    (hbytes : rdr.bytes = p ++ [period] ++ q ++ [period] ++ s) :
    SplitCompact rdr = .ok (p, q, s) := by
  unfold SplitCompact
  rw [loop_clean _ _ hclean, hbytes, feed_three_segments p q s hp hq hs]
  rfl

/-- C14, on "ab.c." read in pieces: two bytes, an empty read, then the rest
together with `io.EOF`; the signature is empty. -/
theorem SplitCompact_three_segments_witness :
    SplitCompact [([97, 98], none), ([], none), ([46, 99, 46], some io.ReadError.EOF)] =
      .ok ([97, 98], [99], []) :=
  SplitCompact_three_segments [97, 98] [99] []
    [([97, 98], none), ([], none), ([46, 99, 46], some io.ReadError.EOF)]
    (by decide) (by decide) (by decide) rfl rfl

end jws

namespace jws

open bytes base64

theorem count_period_Encode (x : Bytes) : (Encode x).count period = 0 :=
  List.count_eq_zero_of_not_mem fun h => (Encode_plain x period h).1 rfl

theorem period_not_mem_Encode (x : Bytes) : period ∉ Encode x :=
  fun h => (Encode_plain x period h).1 rfl

theorem compact_plain (h p s : Bytes) :
    ∀ c ∈ Encode h ++ [period] ++ Encode p ++ [period] ++ Encode s,
      c ≠ 123 ∧ c.val < 128 ∧ asciiSpace c = false := by
  have hperiod : period ≠ 123 ∧ period.val < 128 ∧ asciiSpace period = false := by decide
  intro c hc
  simp only [List.mem_append, List.mem_singleton] at hc
  rcases hc with (((hc | hc) | hc) | hc) | hc
  · exact (Encode_plain _ c hc).2
  · exact hc ▸ hperiod
  · exact (Encode_plain _ c hc).2
  · exact hc ▸ hperiod
  · exact (Encode_plain _ c hc).2

theorem Sign_headers_supplied {η : Type} (hdrs : η) (options : List (JWSOption η)) :
    ((∀ value, JWSOption.optkeyHeaders value ∉ options) ∧
        Sign.headers hdrs options = hdrs) ∨
      (∃ before after,
        options = before ++ JWSOption.optkeyHeaders (Sign.headers hdrs options) :: after ∧
        ∀ value, JWSOption.optkeyHeaders value ∉ after) := by
  induction options generalizing hdrs with
  | nil => exact Or.inl ⟨fun _ h => (by cases h), rfl⟩
  | cons o rest ih =>
    cases o with
    | optkeyHeaders v =>
      right
      rcases ih v with ⟨hnone, heq⟩ | ⟨before, after, hsplit, hnone⟩
      · exact ⟨[], rest, by simp [Sign.headers, heq], hnone⟩
      · refine ⟨JWSOption.optkeyHeaders v :: before, after, ?_, hnone⟩
        simp only [Sign.headers, List.cons_append]
        rw [← hsplit]
    | optkeyPayloadSigner signer =>
      rcases ih hdrs with ⟨hnone, heq⟩ | ⟨before, after, hsplit, hnone⟩
      · refine Or.inl ⟨fun value h => ?_, by simp [Sign.headers, heq]⟩
        rcases List.mem_cons.1 h with h | h
        · cases h
        · exact hnone value h
      · refine Or.inr ⟨JWSOption.optkeyPayloadSigner signer :: before, after, ?_, hnone⟩
        simp only [Sign.headers, List.cons_append]
        rw [← hsplit]
    | other name =>
      rcases ih hdrs with ⟨hnone, heq⟩ | ⟨before, after, hsplit, hnone⟩
      · refine Or.inl ⟨fun value h => ?_, by simp [Sign.headers, heq]⟩
        rcases List.mem_cons.1 h with h | h
        · cases h
        · exact hnone value h
      · refine Or.inr ⟨JWSOption.other name :: before, after, ?_, hnone⟩
        simp only [Sign.headers, List.cons_append]
        rw [← hsplit]

/-- C15: when `Sign` succeeds, its result is the unpadded URL-safe base64 of
the marshalled headers, a period, the base64 of the payload, a period and the
base64 of the signature. The headers marshalled are the ones supplied, after
`Set` put the signer's algorithm under the algorithm key: supplied are the
headers of the last headers option among the options, and new headers when no
option is a headers option. The signature is the signer's over the first two
segments joined by a period. The result holds exactly two periods. -/
theorem Sign_compact_form {κ η : Type} (env : Env κ η) (payload : Bytes) (alg : String)
    (key : κ) (options : List (JWSOption η)) (out : Bytes)
    (h : Sign env payload alg key options = .ok out) :
    ∃ signer supplied hdrs hdrbuf sig,
      env.signNew alg = .ok signer ∧
      (((∀ value, JWSOption.optkeyHeaders value ∉ options) ∧ supplied = env.NewHeaders) ∨
        (∃ before after,
          options = before ++ JWSOption.optkeyHeaders supplied :: after ∧
          ∀ value, JWSOption.optkeyHeaders value ∉ after)) ∧
      supplied = Sign.headers env.NewHeaders options ∧
      env.Set supplied env.AlgorithmKey signer.Algorithm = .ok hdrs ∧
      env.MarshalHeaders hdrs = .ok hdrbuf ∧
      signer.Sign (Encode hdrbuf ++ [period] ++ Encode payload) key = .ok sig ∧
      out = Encode hdrbuf ++ [period] ++ Encode payload ++ [period] ++ Encode sig ∧
      out.count period = 2 := by
  unfold Sign at h
  cases h1 : env.signNew alg with
  | error err => simp [h1] at h
  | ok signer =>
    cases h2 : env.Set (Sign.headers env.NewHeaders options) env.AlgorithmKey
        signer.Algorithm with
    | error err => simp [h1, h2] at h
    | ok hdrs =>
      cases h3 : env.MarshalHeaders hdrs with
      | error err => simp [h1, h2, h3] at h
      | ok hdrbuf =>
        cases h4 : signer.Sign (Encode hdrbuf ++ [period] ++ Encode payload) key with
        | error err => simp only [h1, h2, h3, Sign.compact, h4, reduceCtorEq] at h
        | ok sig =>
          simp only [h1, h2, h3, Sign.compact, h4, Except.ok.injEq] at h
          refine ⟨signer, Sign.headers env.NewHeaders options, hdrs, hdrbuf, sig, rfl, ?_,
            rfl, h2, h3, h4, h.symm, ?_⟩
          · rcases Sign_headers_supplied env.NewHeaders options with
              ⟨hnone, heq⟩ | ⟨before, after, hsplit, hnone⟩
            · exact Or.inl ⟨hnone, heq⟩
            · exact Or.inr ⟨before, after, hsplit, hnone⟩
          · rw [← h]
            simp [List.count_append, count_period_Encode, List.count_singleton]

/-- C15, for the payload "hi" signed with the sample signer under "HS256",
with two headers options among the options: the result
"a2lkPTc7YWxnPUhTMjU2Ow.aGk.AQIaYTI" begins with the base64 of the headers of
the second one, "kid=7;", with the algorithm set. -/
theorem Sign_compact_form_witness :
    ∃ signer supplied hdrs hdrbuf sig,
      sampleEnv.signNew "HS256" = .ok signer ∧
      (((∀ value, JWSOption.optkeyHeaders value ∉
            [JWSOption.other "x", JWSOption.optkeyHeaders (ofString "kid=0;"),
              JWSOption.optkeyHeaders (ofString "kid=7;"), JWSOption.other "y"]) ∧
          supplied = sampleEnv.NewHeaders) ∨
        (∃ before after,
          [JWSOption.other "x", JWSOption.optkeyHeaders (ofString "kid=0;"),
              JWSOption.optkeyHeaders (ofString "kid=7;"), JWSOption.other "y"] =
            before ++ JWSOption.optkeyHeaders supplied :: after ∧
          ∀ value, JWSOption.optkeyHeaders value ∉ after)) ∧
      supplied = Sign.headers sampleEnv.NewHeaders
        [JWSOption.other "x", JWSOption.optkeyHeaders (ofString "kid=0;"),
          JWSOption.optkeyHeaders (ofString "kid=7;"), JWSOption.other "y"] ∧
      sampleEnv.Set supplied sampleEnv.AlgorithmKey signer.Algorithm = .ok hdrs ∧
      sampleEnv.MarshalHeaders hdrs = .ok hdrbuf ∧
      signer.Sign (Encode hdrbuf ++ [period] ++ Encode [104, 105]) [1, 2] = .ok sig ∧
      ofString "a2lkPTc7YWxnPUhTMjU2Ow.aGk.AQIaYTI" =
        Encode hdrbuf ++ [period] ++ Encode [104, 105] ++ [period] ++ Encode sig ∧
      (ofString "a2lkPTc7YWxnPUhTMjU2Ow.aGk.AQIaYTI").count period = 2 :=
  Sign_compact_form sampleEnv [104, 105] "HS256" [1, 2]
    [JWSOption.other "x", JWSOption.optkeyHeaders (ofString "kid=0;"),
      JWSOption.optkeyHeaders (ofString "kid=7;"), JWSOption.other "y"]
    (ofString "a2lkPTc7YWxnPUhTMjU2Ow.aGk.AQIaYTI") rfl

/-- The compact serialization of "hi" under the sample environment: with
headers options, the headers of the last one are marshalled with the algorithm
set; without one, new headers are. -/
theorem Sign_sample_headers_option :
    Sign sampleEnv [104, 105] "HS256" [1, 2]
        [JWSOption.other "x", JWSOption.optkeyHeaders (ofString "kid=0;"),
          JWSOption.optkeyHeaders (ofString "kid=7;"), JWSOption.other "y"] =
      .ok (Encode (ofString "kid=7;alg=HS256;") ++ [period] ++ Encode (ofString "hi") ++
        [period] ++ Encode [1, 2, 26, 97, 50]) ∧
    Sign sampleEnv [104, 105] "HS256" [1, 2] [] =
      .ok (Encode (ofString "alg=HS256;") ++ [period] ++ Encode (ofString "hi") ++
        [period] ++ Encode [1, 2, 18, 89, 87]) := by
  constructor <;> rfl

/-- C13: when a signer and a verifier can be created for the algorithm, the
headers can be set and marshalled, the signer signs and the verifier accepts
whatever the signer signs with the key, `Sign` succeeds and `Verify` of its
result with the same algorithm and key succeeds and returns exactly the bytes
of the payload. -/
theorem Verify_Sign {κ η : Type} (env : Env κ η) (payload : Bytes) (alg : String) (key : κ)
    (options : List (JWSOption η)) (signer : Signer κ) (verifier : Verifier κ) (hdrs : η)
    (hdrbuf sig : Bytes)
    (hsigner : env.signNew alg = .ok signer) (hverifier : env.verifyNew alg = .ok verifier)
    (hset : env.Set (Sign.headers env.NewHeaders options) env.AlgorithmKey signer.Algorithm =
      .ok hdrs)
    (hmarshal : env.MarshalHeaders hdrs = .ok hdrbuf)
    (hsig : signer.Sign (Encode hdrbuf ++ [period] ++ Encode payload) key = .ok sig)
    (haccept : ∀ msg sig', signer.Sign msg key = .ok sig' →
      verifier.Verify msg sig' key = none) :
    ∃ out, Sign env payload alg key options = .ok out ∧
      Verify env out alg key = .ok payload := by
  refine ⟨Encode hdrbuf ++ [period] ++ Encode payload ++ [period] ++ Encode sig, ?_, ?_⟩
  · simp only [Sign, hsigner, hset, hmarshal, Sign.compact, hsig]
  · have hplain := compact_plain hdrbuf payload sig
    have htrim : TrimSpace env.TrimFunc
        (Encode hdrbuf ++ [period] ++ Encode payload ++ [period] ++ Encode sig) =
        Encode hdrbuf ++ [period] ++ Encode payload ++ [period] ++ Encode sig :=
      TrimSpace_plain _ _ fun c hc => (hplain c hc).2
    have hlen : (Encode hdrbuf ++ [period] ++ Encode payload ++ [period] ++
        Encode sig).length ≠ 0 := by
      simp
    have hhead : (Encode hdrbuf ++ [period] ++ Encode payload ++ [period] ++
        Encode sig).head? ≠ some 123 := by
      intro hh
      exact (hplain 123 (List.mem_of_mem_head? hh)).1 rfl
    have hsplit : SplitCompact (NewReader 4096
        (Encode hdrbuf ++ [period] ++ Encode payload ++ [period] ++ Encode sig)) =
        .ok (Encode hdrbuf, Encode payload, Encode sig) := by
      unfold SplitCompact
      rw [loop_clean _ _ (NewReader_clean _ _), NewReader_bytes,
        feed_three_segments _ _ _ (period_not_mem_Encode _) (period_not_mem_Encode _)
          (period_not_mem_Encode _)]
      rfl
    simp only [Verify, hverifier, htrim, hlen, hhead, if_false, Verify.compact, hsplit,
      DecodeToBuffer_Encode, haccept _ _ hsig]

/-- C13, for the payload "hi", the algorithm "HS256" and the key 1, 2 with the
sample signer and verifier. -/
theorem Verify_Sign_witness :
    ∃ out, Sign sampleEnv [104, 105] "HS256" [1, 2] [] = .ok out ∧
      Verify sampleEnv out "HS256" [1, 2] = .ok [104, 105] :=
  Verify_Sign sampleEnv [104, 105] "HS256" [1, 2] [] (sampleSigner "HS256") sampleVerifier
    (ofString "alg=HS256;") (ofString "alg=HS256;") [1, 2, 18, 89, 87]
    rfl rfl rfl rfl rfl
    (fun msg sig' h => by
      simp only [sampleSigner, Except.ok.injEq] at h
      simp [sampleVerifier, ← h])

end jws

namespace jws

open bytes base64

theorem SignMulti_sign_ok {κ η : Type} (env : Env κ η) (encodedPayload : Bytes)
    (signers : List (PayloadSigner η)) (entries : List (encodedSignature η))
    (h : SignMulti.sign env encodedPayload signers = .ok entries) :
    List.Forall₂ (fun (signer : PayloadSigner η) (entry : encodedSignature η) =>
        ∃ hdrs hdrbuf sig,
          env.Set (signer.ProtectedHeader.getD env.NewHeaders) env.AlgorithmKey
            signer.Algorithm = .ok hdrs ∧
          env.MarshalHeaders hdrs = .ok hdrbuf ∧
          signer.Sign (Encode hdrbuf ++ [period] ++ encodedPayload) = .ok sig ∧
          entry = { Headers := signer.PublicHeader, Protected := Encode hdrbuf,
                    Signature := Encode sig })
      signers entries := by
  induction signers generalizing entries with
  | nil =>
    simp only [SignMulti.sign, Except.ok.injEq] at h
    subst h
    exact List.Forall₂.nil
  | cons signer rest ih =>
    have hprot : (match signer.ProtectedHeader with
        | some h => h
        | none => env.NewHeaders) = signer.ProtectedHeader.getD env.NewHeaders := by
      cases signer.ProtectedHeader <;> rfl
    simp only [SignMulti.sign, hprot] at h
    cases h1 : env.Set (signer.ProtectedHeader.getD env.NewHeaders) env.AlgorithmKey
        signer.Algorithm with
    | error err => simp only [h1, reduceCtorEq] at h
    | ok hdrs =>
      cases h2 : env.MarshalHeaders hdrs with
      | error err => simp only [h1, h2, reduceCtorEq] at h
      | ok hdrbuf =>
        cases h3 : signer.Sign (Encode hdrbuf ++ [period] ++ encodedPayload) with
        | error err => simp only [h1, h2, h3, reduceCtorEq] at h
        | ok sig =>
          cases h4 : SignMulti.sign env encodedPayload rest with
          | error err => simp only [h1, h2, h3, h4, reduceCtorEq] at h
          | ok tail =>
            simp only [h1, h2, h3, h4, Except.ok.injEq] at h
            subst h
            exact List.Forall₂.cons ⟨hdrs, hdrbuf, sig, h1, h2, h3, rfl⟩ (ih tail h4)

theorem SignMulti_sign_succeeds {κ η : Type} (env : Env κ η) (encodedPayload : Bytes)
    (signers : List (PayloadSigner η))
    (h : ∀ signer ∈ signers, ∃ hdrs hdrbuf sig,
      env.Set (signer.ProtectedHeader.getD env.NewHeaders) env.AlgorithmKey
        signer.Algorithm = .ok hdrs ∧
      env.MarshalHeaders hdrs = .ok hdrbuf ∧
      signer.Sign (Encode hdrbuf ++ [period] ++ encodedPayload) = .ok sig) :
    ∃ entries, SignMulti.sign env encodedPayload signers = .ok entries := by
  induction signers with
  | nil => exact ⟨[], rfl⟩
  | cons signer rest ih =>
    obtain ⟨hdrs, hdrbuf, sig, h1, h2, h3⟩ := h signer (by simp)
    obtain ⟨tail, h4⟩ := ih fun s hs => h s (by simp [hs])
    have hprot : (match signer.ProtectedHeader with
        | some h => h
        | none => env.NewHeaders) = signer.ProtectedHeader.getD env.NewHeaders := by
      cases signer.ProtectedHeader <;> rfl
    exact ⟨{ Headers := signer.PublicHeader, Protected := Encode hdrbuf,
             Signature := Encode sig } :: tail,
      by simp only [SignMulti.sign, hprot, h1, h2, h3, h4]⟩

theorem SignMulti_signers_supplied {η : Type} (options : List (JWSOption η)) :
    SignMulti.signers options = options.filterMap JWSOption.asPayloadSigner := by
  induction options with
  | nil => rfl
  | cons o rest ih =>
    cases o <;> simp [SignMulti.signers, JWSOption.asPayloadSigner, ih]

theorem mem_signers_supplied {η : Type} (options : List (JWSOption η))
    (signer : PayloadSigner η) :
    signer ∈ options.filterMap JWSOption.asPayloadSigner ↔
      JWSOption.optkeyPayloadSigner signer ∈ options := by
  induction options with
  | nil => simp
  | cons o rest ih =>
    cases o with
    | optkeyHeaders v =>
      simp [List.filterMap_cons, JWSOption.asPayloadSigner, ih]
    | optkeyPayloadSigner value =>
      simp only [List.filterMap_cons, JWSOption.asPayloadSigner, List.mem_cons, ih,
        JWSOption.optkeyPayloadSigner.injEq]
    | other name =>
      simp [List.filterMap_cons, JWSOption.asPayloadSigner, ih]

/-- C16: when no option is a payload-signer option, `SignMulti` fails with
"no signers provided". When it builds a message, the message carries the
base64url of the payload and one signature entry for each payload signer
supplied through the options, in the order of the options: the entry holds
the signer's public header, the base64 of its marshalled protected header
(with the signer's algorithm set) and the base64 of the signer's signature
over that encoded header, a period and the encoded payload. It builds the
message whenever a signer is supplied and every supplied signer succeeds. -/
theorem SignMulti_entries {κ η : Type} (env : Env κ η) (payload : Bytes)
    (options : List (JWSOption η)) :
    ((∀ signer, JWSOption.optkeyPayloadSigner signer ∉ options) →
      SignMulti env payload options = .error (errors.New "no signers provided")) ∧
    (∀ msg, SignMulti.message env payload options = .ok msg →
      SignMulti env payload options = env.MarshalMessage msg ∧
      msg.Payload = Encode payload ∧
      List.Forall₂ (fun (signer : PayloadSigner η) (entry : encodedSignature η) =>
          ∃ hdrs hdrbuf sig,
            env.Set (signer.ProtectedHeader.getD env.NewHeaders) env.AlgorithmKey
              signer.Algorithm = .ok hdrs ∧
            env.MarshalHeaders hdrs = .ok hdrbuf ∧
            signer.Sign (Encode hdrbuf ++ [period] ++ Encode payload) = .ok sig ∧
            entry = { Headers := signer.PublicHeader, Protected := Encode hdrbuf,
                      Signature := Encode sig })
        (options.filterMap JWSOption.asPayloadSigner) msg.Signatures) ∧
    ((∃ signer, JWSOption.optkeyPayloadSigner signer ∈ options) →
      (∀ signer, JWSOption.optkeyPayloadSigner signer ∈ options → ∃ hdrs hdrbuf sig,
        env.Set (signer.ProtectedHeader.getD env.NewHeaders) env.AlgorithmKey
          signer.Algorithm = .ok hdrs ∧
        env.MarshalHeaders hdrs = .ok hdrbuf ∧
        signer.Sign (Encode hdrbuf ++ [period] ++ Encode payload) = .ok sig) →
      ∃ msg, SignMulti.message env payload options = .ok msg) := by
  have hsup := SignMulti_signers_supplied options
  refine ⟨fun h => ?_, fun msg h => ?_, fun hne hall => ?_⟩
  · have hnil : SignMulti.signers options = [] := by
      rw [hsup]
      apply List.eq_nil_iff_forall_not_mem.2
      intro signer hmem
      exact h signer ((mem_signers_supplied options signer).1 hmem)
    simp [SignMulti, SignMulti.message, hnil]
  · have hmsg := h
    unfold SignMulti.message at h
    by_cases hlen : (SignMulti.signers options).length = 0
    · simp only [hlen, if_true, reduceCtorEq] at h
    · cases hs : SignMulti.sign env (Encode payload) (SignMulti.signers options) with
      | error err => simp only [hlen, if_false, hs, reduceCtorEq] at h
      | ok entries =>
        simp only [hlen, if_false, hs, Except.ok.injEq] at h
        subst h
        refine ⟨by simp only [SignMulti, hmsg], rfl, ?_⟩
        rw [← hsup]
        exact SignMulti_sign_ok env _ _ _ hs
  · obtain ⟨entries, hs⟩ := SignMulti_sign_succeeds env (Encode payload)
      (SignMulti.signers options) (fun signer hmem =>
        hall signer ((mem_signers_supplied options signer).1 (hsup ▸ hmem)))
    have hlen : ¬ (SignMulti.signers options).length = 0 := by
      intro h0
      obtain ⟨signer, hmem⟩ := hne
      have hin : signer ∈ SignMulti.signers options := by
        rw [hsup]
        exact (mem_signers_supplied options signer).2 hmem
      rw [List.length_eq_zero.1 h0] at hin
      cases hin
    exact ⟨{ Payload := Encode payload, Signatures := entries },
      by simp only [SignMulti.message, hlen, if_false, hs]⟩

/-- C16, on the payload "hi" and the sample options, two payload signers with
another option between them: the message has the payload "aGk" and two
entries, the one of the first signer (protected header "kid=1;", no public
header) before the one of the second (new protected header, public header
"pub=2;"). -/
theorem SignMulti_entries_witness :
    SignMulti sampleEnv [104, 105] sampleSignMultiOptions =
        sampleEnv.MarshalMessage
          { Payload := ofString "aGk",
            Signatures :=
              [{ Headers := none, Protected := ofString "a2lkPTE7YWxnPUhTMjU2Ow",
                 Signature := ofString "AQIaYTI" },
                { Headers := some (ofString "pub=2;"),
                  Protected := ofString "YWxnPUVTMjU2Ow",
                  Signature := ofString "AxJZVw" }] } ∧
      ofString "aGk" = Encode [104, 105] ∧
      List.Forall₂ (fun (signer : PayloadSigner Bytes) (entry : encodedSignature Bytes) =>
          ∃ hdrs hdrbuf sig,
            sampleEnv.Set (signer.ProtectedHeader.getD sampleEnv.NewHeaders)
              sampleEnv.AlgorithmKey signer.Algorithm = .ok hdrs ∧
            sampleEnv.MarshalHeaders hdrs = .ok hdrbuf ∧
            signer.Sign (Encode hdrbuf ++ [period] ++ Encode [104, 105]) = .ok sig ∧
            entry = { Headers := signer.PublicHeader, Protected := Encode hdrbuf,
                      Signature := Encode sig })
        [samplePayloadSigner "HS256" [1, 2] (some (ofString "kid=1;")) none,
          samplePayloadSigner "ES256" [3] none (some (ofString "pub=2;"))]
        [{ Headers := none, Protected := ofString "a2lkPTE7YWxnPUhTMjU2Ow",
           Signature := ofString "AQIaYTI" },
          { Headers := some (ofString "pub=2;"), Protected := ofString "YWxnPUVTMjU2Ow",
            Signature := ofString "AxJZVw" }] :=
  (SignMulti_entries sampleEnv [104, 105] sampleSignMultiOptions).2.1
    { Payload := ofString "aGk",
      Signatures :=
        [{ Headers := none, Protected := ofString "a2lkPTE7YWxnPUhTMjU2Ow",
           Signature := ofString "AQIaYTI" },
          { Headers := some (ofString "pub=2;"), Protected := ofString "YWxnPUVTMjU2Ow",
            Signature := ofString "AxJZVw" }] }
    rfl

theorem VerifyWithJWKSet_loop_tried {κ η : Type} (env : Env κ η) (buf : Bytes)
    (keyaccept : Key κ → Bool) (keys : List (Key κ)) :
    ∀ key ∈ (VerifyWithJWKSet.loop env buf keyaccept keys).2, keyaccept key = true := by
  induction keys with
  | nil => simp [VerifyWithJWKSet.loop]
  | cons k rest ih =>
    cases hacc : keyaccept k with
    | false => simpa [VerifyWithJWKSet.loop, hacc] using ih
    | true =>
      cases hv : VerifyWithJWK env buf k with
      | ok payload => simp [VerifyWithJWKSet.loop, hacc, hv]
      | error err =>
        intro key hkey
        simp only [VerifyWithJWKSet.loop, hacc, hv, Bool.not_true, Bool.false_eq_true,
          if_false, List.mem_cons] at hkey
        rcases hkey with h | h
        · rw [h, hacc]
        · exact ih key h

theorem VerifyWithJWKSet_loop_first {κ η : Type} (env : Env κ η) (buf : Bytes)
    (keyaccept : Key κ → Bool) (before : List (Key κ)) (key : Key κ) (after : List (Key κ))
    (payload : Bytes) (hacc : keyaccept key = true)
    (hok : VerifyWithJWK env buf key = .ok payload)
    (hbefore : ∀ k ∈ before, keyaccept k = true → ∃ err, VerifyWithJWK env buf k = .error err) :
    VerifyWithJWKSet.loop env buf keyaccept (before ++ key :: after) =
      (.ok payload, before.filter keyaccept ++ [key]) := by
  induction before with
  | nil => simp [VerifyWithJWKSet.loop, hacc, hok]
  | cons k rest ih =>
    have ih' := ih fun k' hk' => hbefore k' (by simp [hk'])
    cases hk : keyaccept k with
    | false => simp [VerifyWithJWKSet.loop, hk, ih']
    | true =>
      obtain ⟨err, herr⟩ := hbefore k (by simp) hk
      simp [VerifyWithJWKSet.loop, hk, herr, ih']

theorem VerifyWithJWKSet_loop_error {κ η : Type} (env : Env κ η) (buf : Bytes)
    (keyaccept : Key κ → Bool) (keys : List (Key κ)) :
    (∀ err, (VerifyWithJWKSet.loop env buf keyaccept keys).1 = .error err →
      err = errors.New "failed to verify with any of the keys") ∧
    ((∃ err, (VerifyWithJWKSet.loop env buf keyaccept keys).1 = .error err) ↔
      ∀ k ∈ keys, keyaccept k = true → ∃ err, VerifyWithJWK env buf k = .error err) := by
  induction keys with
  | nil => simp [VerifyWithJWKSet.loop]
  | cons k rest ih =>
    cases hacc : keyaccept k with
    | false => simpa [VerifyWithJWKSet.loop, hacc] using ih
    | true =>
      cases hv : VerifyWithJWK env buf k with
      | ok payload => simp [VerifyWithJWKSet.loop, hacc, hv]
      | error err => simpa [VerifyWithJWKSet.loop, hacc, hv] using ih

/-- C17: `VerifyWithJWKSet` hands to `VerifyWithJWK` only keys the acceptor
accepts (`DefaultJWKAcceptor` for a nil `keyaccept`). Its result is the payload
of the first accepted key, in the order of the key set, whose verification
succeeds, the keys tried being the accepted keys up to that one. It returns an
error exactly when no accepted key verifies, and the error is then always
"failed to verify with any of the keys". -/
theorem VerifyWithJWKSet_first_accepted {κ η : Type} (env : Env κ η) (buf : Bytes)
    (keyset : List (Key κ)) (keyaccept : Option (Key κ → Bool)) :
    (∀ key ∈ (VerifyWithJWKSet env buf keyset keyaccept).2,
      (keyaccept.getD env.DefaultJWKAcceptor) key = true) ∧
    (∀ before key after payload, keyset = before ++ key :: after →
      (keyaccept.getD env.DefaultJWKAcceptor) key = true →
      VerifyWithJWK env buf key = .ok payload →
      (∀ k ∈ before, (keyaccept.getD env.DefaultJWKAcceptor) k = true →
        ∃ err, VerifyWithJWK env buf k = .error err) →
      VerifyWithJWKSet env buf keyset keyaccept =
        (.ok payload, before.filter (keyaccept.getD env.DefaultJWKAcceptor) ++ [key])) ∧
    (∀ err, (VerifyWithJWKSet env buf keyset keyaccept).1 = .error err →
      err = errors.New "failed to verify with any of the keys") ∧
    ((VerifyWithJWKSet env buf keyset keyaccept).1 =
        .error (errors.New "failed to verify with any of the keys") ↔
      ∀ k ∈ keyset, (keyaccept.getD env.DefaultJWKAcceptor) k = true →
        ∃ err, VerifyWithJWK env buf k = .error err) := by
  have hdef : VerifyWithJWKSet env buf keyset keyaccept =
      VerifyWithJWKSet.loop env buf (keyaccept.getD env.DefaultJWKAcceptor) keyset := by
    cases keyaccept <;> rfl
  rw [hdef]
  have herr := VerifyWithJWKSet_loop_error env buf (keyaccept.getD env.DefaultJWKAcceptor)
    keyset
  refine ⟨VerifyWithJWKSet_loop_tried env buf _ keyset, ?_, herr.1, ?_⟩
  · intro before key after payload hsplit hacc hok hbefore
    rw [hsplit]
    exact VerifyWithJWKSet_loop_first env buf _ before key after payload hacc hok hbefore
  · constructor
    · intro h
      exact herr.2.1 ⟨_, h⟩
    · intro h
      obtain ⟨err, he⟩ := herr.2.2 h
      rw [he, herr.1 err he]

end jws

namespace base64

/-- The encoder on the test vectors of RFC 4648 and on two bytes that need the
URL-safe characters. -/
theorem Encode_test_vectors :
    Encode (jws.ofString "f") = jws.ofString "Zg" ∧
    Encode (jws.ofString "fo") = jws.ofString "Zm8" ∧
    Encode (jws.ofString "foobar") = jws.ofString "Zm9vYmFy" ∧
    Encode [251, 255] = jws.ofString "-_8" := by
  decide

end base64

namespace huawei

/-- C21: for every marker and limit, the count `GetEips` returns is the length
of the list it returns, every EIP of that list has its region set to the
receiver, and the query handed to `DoList` holds under "limit" the decimal
text of the limit argument: the query is that one entry, followed by the
marker entry when the marker is not empty, so the initial "50" is not in the
request. The list and the error are those of `DoList` on that query. -/
theorem GetEips_count_region_limit (DoList : Querys → List SEipAddress × Option error)
    (self : SRegion) (marker : String) (limit : Int) :
    (SRegion.GetEips DoList self marker limit).count =
      (SRegion.GetEips DoList self marker limit).eips.length ∧
    (∀ eip ∈ (SRegion.GetEips DoList self marker limit).eips, eip.region = some self) ∧
    (SRegion.GetEips DoList self marker limit).querys.get "limit" =
      some (strconv.Itoa limit) ∧
    ((marker = "" ∧
        (SRegion.GetEips DoList self marker limit).querys =
          [("limit", strconv.Itoa limit)]) ∨
      (marker ≠ "" ∧
        (SRegion.GetEips DoList self marker limit).querys =
          [("limit", strconv.Itoa limit), ("marker", marker)])) ∧
    (SRegion.GetEips DoList self marker limit).eips =
      (DoList (SRegion.GetEips DoList self marker limit).querys).1.map
        (fun eip => { eip with region := some self }) ∧
    (SRegion.GetEips DoList self marker limit).err =
      (DoList (SRegion.GetEips DoList self marker limit).querys).2 := by
  by_cases hm : marker = ""
  · have hsize : ¬ marker.utf8ByteSize > 0 := by
      rw [(taskman.utf8ByteSize_eq_zero_iff marker).2 hm]
      decide
    simp [SRegion.GetEips, hsize, hm, Querys.set, Querys.get]
  · have hsize : marker.utf8ByteSize > 0 := by
      rcases Nat.eq_zero_or_pos marker.utf8ByteSize with h0 | h0
      · exact absurd ((taskman.utf8ByteSize_eq_zero_iff marker).1 h0) hm
      · exact h0
    simp [SRegion.GetEips, hsize, hm, Querys.set, Querys.get]

end huawei

namespace jws

open bytes

theorem shorten_assign_periods (st : SplitState) (i : Nat) :
    (SplitCompact.shorten (SplitCompact.assign st i) i).periods = st.periods := by
  obtain ⟨p, q, s, n, state, sofar⟩ := st
  rcases state with _ | _ | _ | k <;>
    simp only [SplitCompact.shorten, SplitCompact.assign] <;> split <;> rfl

theorem inner_periods (eof : Bool) (f : Nat) (st : SplitState) (h : st.sofar.length < f) :
    (SplitCompact.inner eof f st).periods = st.periods + st.sofar.count period := by
  induction f generalizing st with
  | zero => omega
  | succ f ih =>
    cases hidx : IndexByte st.sofar period with
    | none =>
      have hcount : st.sofar.count period = 0 :=
        List.count_eq_zero_of_not_mem ((IndexByte_eq_none _ _).1 hidx)
      cases eof with
      | false => simp [SplitCompact.inner, hidx, hcount]
      | true => simp [SplitCompact.inner, hidx, hcount, shorten_assign_periods]
    | some i =>
      obtain ⟨hi, hnot, hsplit⟩ := IndexByte_eq_some _ _ _ hidx
      have hsofar := shorten_assign_sofar { st with periods := st.periods + 1 } i hi
      have hper := shorten_assign_periods { st with periods := st.periods + 1 } i
      have hcount : st.sofar.count period = 1 + (st.sofar.drop (i + 1)).count period := by
        conv_lhs => rw [hsplit]
        rw [List.count_append, List.count_eq_zero_of_not_mem hnot, List.count_cons_self]
        omega
      simp only [SplitCompact.inner, hidx]
      rw [ih _ (by rw [hsofar]; simp only [List.length_drop]; omega), hper, hsofar, hcount]
      simp only
      omega

/-- C22: for every reader without a non-EOF read error, `SplitCompact` returns
the error "invalid number of segments" if and only if the bytes read do not
hold exactly two periods. -/
theorem SplitCompact_invalid_segments_iff (rdr : io.Reader) (hclean : rdr.clean = true) :
    SplitCompact rdr = .error (errors.New "invalid number of segments") ↔
      rdr.bytes.count period ≠ 2 := by
  have hper : (SplitCompact.feed true
      { protectedHdr := [], payload := [], signature := [], periods := 0, state := 0,
        sofar := [] } rdr.bytes).periods = rdr.bytes.count period := by
    simp only [SplitCompact.feed, List.nil_append]
    rw [inner_periods _ _ _ (by simp)]
    simp
  unfold SplitCompact
  rw [loop_clean _ _ hclean, SplitCompact.finish, hper]
  by_cases h2 : rdr.bytes.count period = 2
  · simp [h2]
  · simp [h2]

/-- C22, on "a.b" read in two pieces: one period only, so the error. -/
theorem SplitCompact_invalid_segments_iff_witness :
    SplitCompact [([97, 46], none), ([98], some io.ReadError.EOF)] =
      .error (errors.New "invalid number of segments") :=
  (SplitCompact_invalid_segments_iff [([97, 46], none), ([98], some io.ReadError.EOF)]
    rfl).2 (by decide)

/-- C23: for every reader without a non-EOF read error, whatever the division
of the input into reads (empty reads and data together with `io.EOF`
included), `SplitCompact` returns what it returns when the bytes read arrive
in one read, be the end reported by the next read or together with the
data. -/
theorem SplitCompact_read_division (rdr : io.Reader) (hclean : rdr.clean = true) :
    SplitCompact rdr = SplitCompact.whole rdr.bytes ∧
    SplitCompact rdr = SplitCompact [(rdr.bytes, some io.ReadError.EOF)] := by
  have h1 : SplitCompact.whole rdr.bytes =
      SplitCompact.finish (SplitCompact.feed true
        { protectedHdr := [], payload := [], signature := [], periods := 0, state := 0,
          sofar := [] } rdr.bytes) := by
    unfold SplitCompact.whole SplitCompact
    rw [loop_clean _ [(rdr.bytes, none)] rfl]
    simp [io.Reader.bytes]
  constructor
  · rw [h1]
    unfold SplitCompact
    exact loop_clean _ _ hclean
  · unfold SplitCompact
    rw [loop_clean _ _ hclean]
    rfl

/-- C23, on "a.b.c" read as "a", ".b", an empty read and ".c" together with
`io.EOF`: the result is that of one read of "a.b.c". -/
theorem SplitCompact_read_division_witness :
    SplitCompact [([97], none), ([46, 98], none), ([], none),
        ([46, 99], some io.ReadError.EOF)] =
      SplitCompact.whole [97, 46, 98, 46, 99] ∧
    SplitCompact [([97], none), ([46, 98], none), ([], none),
        ([46, 99], some io.ReadError.EOF)] =
      SplitCompact [([97, 46, 98, 46, 99], some io.ReadError.EOF)] :=
  SplitCompact_read_division
    [([97], none), ([46, 98], none), ([], none), ([46, 99], some io.ReadError.EOF)] rfl

end jws
